import Mathlib

/-!
Shallow embedding of the storacle forecasting backend (`backend/forecast.py`),
together with the parts of its data model needed to check the specification's
claims.  Python floats are modelled as rationals (`ℚ`), calendar dates and
timestamps as integer day numbers, pandas series as association lists, and the
result dictionaries as association lists from string keys to a small value type.
The Darts exponential-smoothing model (`ExponentialSmoothing(...).fit(ts)`) is a
numerical external library; it is abstracted as a `FittedModel`: a deterministic
prediction function together with Darts' documented shape contract
(`model.predict(n, num_samples)` returns `num_samples` sample paths of length
`n`).  Everything downstream of the model is embedded from the source.
-/

namespace Storacle

/-- Typed failure outcomes of the spec's error taxonomy (spec section 7).
`build_daily_demand_series` returning `None` and the `ValueError` raised by
`run_forecast_from_series` both realise `InsufficientHistory`. -/
inductive ForecastError where
  | insufficientHistory
  | invalidParameter
deriving DecidableEq

/-- Values stored in the result dictionaries of `forecast.py`.  Calendar dates
(ISO strings in Python) are modelled as integer day numbers, floats as `ℚ`,
Python `None` as `Val.null`. -/
inductive Val where
  | num : ℚ → Val
  | date : ℤ → Val
  | str : String → Val
  | qlist : List ℚ → Val
  | null : Val
deriving DecidableEq

/-- `MIN_DAYS_FOR_FORECAST = 2` (forecast.py line 22). -/
def MIN_DAYS_FOR_FORECAST : ℕ := 2

/-- `DEFAULT_HORIZON = 14` (forecast.py line 25). -/
def DEFAULT_HORIZON : ℕ := 14

/-- `NUM_SAMPLES = 500` (forecast.py line 28). -/
def NUM_SAMPLES : ℕ := 500

/-- `RESTOCK_QUANTILE_LOW = 0.1` (forecast.py line 31). -/
def RESTOCK_QUANTILE_LOW : ℚ := 1/10

/-- `RESTOCK_QUANTILE_HIGH = 0.9` (forecast.py line 32). -/
def RESTOCK_QUANTILE_HIGH : ℚ := 9/10

/-- A timestamp: a calendar day plus the time within that day (seconds).
`_date_floor` (timestamp.replace(hour=0, minute=0, second=0, microsecond=0))
keeps only the day. -/
structure Timestamp where
  day : ℤ
  secs : ℕ
deriving DecidableEq

/-- `_date_floor` (forecast.py lines 35-37). -/
def date_floor (ts : Timestamp) : ℤ := ts.day

/-- A `Snapshot` row joined with its `InventoryCount` rows (models.py):
`time_of_day` is `"AM"` or `"EOD"`; `counts` lists `(product_type, count)`
pairs in row order. -/
structure Snapshot where
  timestamp : Timestamp
  time_of_day : String
  store_name : String
  counts : List (String × ℤ)
deriving DecidableEq

/-- Per-day map from time-of-day marker to the stored count
(the inner dict of `by_date`). -/
abbrev TodMap := List (String × ℤ)

/-- The `by_date` dict: calendar day to per-day time-of-day map. -/
abbrev ByDate := List (ℤ × TodMap)

/-- Dict update `m[tod] = c`: replace the existing binding or append a new one
(insertion order preserved, as for a Python dict). -/
def setTod : TodMap → String → ℤ → TodMap
  | [], tod, c => [(tod, c)]
  | (t, v) :: rest, tod, c =>
    if t = tod then (t, c) :: rest else (t, v) :: setTod rest tod c

/-- Dict update `by_date[d][tod] = c`. -/
def setByDate : ByDate → ℤ → String → ℤ → ByDate
  | [], d, tod, c => [(d, [(tod, c)])]
  | (k, m) :: rest, d, tod, c =>
    if k = d then (k, setTod m tod c) :: rest else (k, m) :: setByDate rest d tod c

/-- `if d not in by_date: by_date[d] = {}` (forecast.py lines 72-73). -/
def ensureDate : ByDate → ℤ → ByDate
  | [], d => [(d, [])]
  | (k, m) :: rest, d =>
    if k = d then (k, m) :: rest else (k, m) :: ensureDate rest d

/-- One iteration of the grouping loop (forecast.py lines 70-77): floor the
snapshot's timestamp to a day, make sure the day has an entry, then for every
count of the requested product store it under the snapshot's time-of-day
marker (a later matching count overwrites an earlier one). -/
def snapshotStep (product_type : String) (bd : ByDate) (s : Snapshot) : ByDate :=
  let d := date_floor s.timestamp
  s.counts.foldl
    (fun bd c => if c.1 ≠ product_type then bd else setByDate bd d s.time_of_day c.2)
    (ensureDate bd d)

/-- The grouping loop over all snapshots, in input (timestamp) order
(forecast.py lines 69-77). -/
def groupSnapshots (snapshots : List Snapshot) (product_type : String) : ByDate :=
  snapshots.foldl (snapshotStep product_type) []

/-- `sorted(by_date.items())`: sort the dict items by calendar day. -/
def sortItems (bd : ByDate) : ByDate :=
  bd.insertionSort (fun a b => a.1 ≤ b.1)

/-- The row-building loop (forecast.py lines 80-84): for each day, in date
order, emit `AM - EOD` when both markers are present. -/
def demandRows (bd : ByDate) : List (ℤ × ℤ) :=
  (sortItems bd).filterMap (fun x =>
    match x.2.lookup "AM", x.2.lookup "EOD" with
    | some am, some eod => some (x.1, am - eod)
    | _, _ => none)

/-- The snapshot query's filters (forecast.py lines 53-66): keep snapshots of
the requested store (when given) that carry a count of the requested product.
The input list stands for the query result ordered by timestamp ascending. -/
def filteredSnaps (snapshots : List Snapshot) (product_type : String)
    (store_name : Option String) : List Snapshot :=
  let inScope : List Snapshot :=
    match store_name with
    | some st => snapshots.filter (fun s => s.store_name == st)
    | none => snapshots
  inScope.filter (fun s => s.counts.any (fun c => c.1 == product_type))

/-- Number of qualifying days: days of the grouped map that have both an `"AM"`
and an `"EOD"` reading, i.e. the length of the built demand series. -/
def qualifying_days (snapshots : List Snapshot) (product_type : String)
    (store_name : Option String) : ℕ :=
  (demandRows (groupSnapshots (filteredSnaps snapshots product_type store_name) product_type)).length

/-- `build_daily_demand_series` (forecast.py lines 40-89): returns the
`(date, demand)` series, or `none` (the `InsufficientHistory` signal) when
fewer than `MIN_DAYS_FOR_FORECAST` qualifying days result. -/
def build_daily_demand_series (snapshots : List Snapshot) (product_type : String)
    (store_name : Option String) : Option (List (ℤ × ℤ)) :=
  let rows := demandRows (groupSnapshots (filteredSnaps snapshots product_type store_name) product_type)
  if rows.length < MIN_DAYS_FOR_FORECAST then none else some rows

/-- `restock_day_from_path` (forecast.py lines 145-162): first 0-based day
index at which the running inventory reaches the safety stock, `none` if the
threshold is never reached within the path. -/
def restock_day_from_path (current_inventory : ℚ) (demand_path : List ℚ)
    (safety_stock : ℚ) : Option ℕ :=
  match demand_path with
  | [] => none
  | d :: rest =>
    if current_inventory - d ≤ safety_stock then some 0
    else (restock_day_from_path (current_inventory - d) rest safety_stock).map (· + 1)

/-- Ascending sort, as `numpy` does before quantile computation. -/
def npSort (xs : List ℚ) : List ℚ := xs.insertionSort (· ≤ ·)

/-- Linear interpolation at fractional position `h` into the sorted list `s`:
`numpy`'s default `linear` quantile method evaluated at virtual index `h`. -/
def interp (s : List ℚ) (h : ℚ) : ℚ :=
  let f : ℕ := (⌊h⌋).toNat
  let lo := s.getD f 0
  let hi := s.getD (f + 1) lo
  lo + (h - (f : ℚ)) * (hi - lo)

/-- `np.quantile(xs, q)` with the default linear interpolation:
sort, then interpolate at virtual index `q * (len - 1)`. -/
def np_quantile (xs : List ℚ) (q : ℚ) : ℚ :=
  interp (npSort xs) (q * ((xs.length : ℚ) - 1))

/-- `np.median(xs)`: middle element of the sorted list, or the mean of the two
middle elements for an even length. -/
def np_median (xs : List ℚ) : ℚ :=
  let s := npSort xs
  let n := s.length
  if n % 2 = 1 then s.getD (n / 2) 0
  else (s.getD (n / 2 - 1) 0 + s.getD (n / 2) 0) / 2

/-- Python's `round` to an integer: round half to even. -/
def pyRound (x : ℚ) : ℤ :=
  let f := ⌊x⌋
  if x - f < 1/2 then f
  else if 1/2 < x - f then f + 1
  else if f % 2 = 0 then f else f + 1

/-- Python's `round(x, 2)`: round half to even at two decimal places. -/
def pyRound2 (x : ℚ) : ℚ := (pyRound (100 * x) : ℚ) / 100

/-- `day_to_date` (forecast.py lines 205-210): round the fractional day index,
clamp it to `n_days`, and add it to the start date. -/
def day_to_date (start_date : ℤ) (n_days : ℕ) (day_float : ℚ) : ℤ :=
  let d := pyRound day_float
  let d2 := if (n_days : ℤ) ≤ d then (n_days : ℤ) else d
  start_date + d2

/-- The per-path restock days (forecast.py lines 191-195); each sample path is
one column of the demand matrix. -/
def restock_days_of (current_inventory safety_stock : ℚ)
    (samples : List (List ℚ)) : List (Option ℕ) :=
  samples.map (fun p => restock_day_from_path current_inventory p safety_stock)

/-- `days_for_quantile` (forecast.py line 198): `None` is replaced by `n_days`
(beyond horizon) for percentile computation. -/
def days_for_quantile (current_inventory safety_stock : ℚ) (n_days : ℕ)
    (samples : List (List ℚ)) : List ℚ :=
  (restock_days_of current_inventory safety_stock samples).map (fun d =>
    match d with
    | some i => (i : ℚ)
    | none => (n_days : ℚ))

/-- `median_day` (forecast.py line 200). -/
def restock_day_median_val (current_inventory safety_stock : ℚ) (n_days : ℕ)
    (samples : List (List ℚ)) : ℚ :=
  np_median (days_for_quantile current_inventory safety_stock n_days samples)

/-- `low_day` (forecast.py line 201). -/
def restock_day_low_val (current_inventory safety_stock : ℚ) (n_days : ℕ)
    (samples : List (List ℚ)) : ℚ :=
  np_quantile (days_for_quantile current_inventory safety_stock n_days samples)
    RESTOCK_QUANTILE_LOW

/-- `high_day` (forecast.py line 202). -/
def restock_day_high_val (current_inventory safety_stock : ℚ) (n_days : ℕ)
    (samples : List (List ℚ)) : ℚ :=
  np_quantile (days_for_quantile current_inventory safety_stock n_days samples)
    RESTOCK_QUANTILE_HIGH

/-- `n_days`, the number of timesteps of the sample matrix (its rows; every
column is one sample path, so every path has this length). -/
def n_days_of (samples : List (List ℚ)) : ℕ := (samples.headD []).length

/-- `sum(1 for d in restock_days if d is not None)` (forecast.py line 220). -/
def paths_within_horizon_count (current_inventory safety_stock : ℚ)
    (samples : List (List ℚ)) : ℕ :=
  (restock_days_of current_inventory safety_stock samples).countP Option.isSome

/-- `restock_date_with_confidence` (forecast.py lines 165-221), as the returned
dict.  `samples` is the demand matrix given as its list of sample paths
(columns); `start_date` is the first forecast day. -/
def restock_date_with_confidence (current_inventory : ℚ) (samples : List (List ℚ))
    (start_date : ℤ) (safety_stock : ℚ) : List (String × Val) :=
  let n_days := n_days_of samples
  [("restock_date_median",
      Val.date (day_to_date start_date n_days
        (restock_day_median_val current_inventory safety_stock n_days samples))),
   ("restock_date_low",
      Val.date (day_to_date start_date n_days
        (restock_day_low_val current_inventory safety_stock n_days samples))),
   ("restock_date_high",
      Val.date (day_to_date start_date n_days
        (restock_day_high_val current_inventory safety_stock n_days samples))),
   ("confidence_level",
      Val.num (pyRound2 (RESTOCK_QUANTILE_HIGH - RESTOCK_QUANTILE_LOW))),
   ("restock_day_median",
      Val.num (restock_day_median_val current_inventory safety_stock n_days samples)),
   ("restock_day_low",
      Val.num (restock_day_low_val current_inventory safety_stock n_days samples)),
   ("restock_day_high",
      Val.num (restock_day_high_val current_inventory safety_stock n_days samples)),
   ("paths_within_horizon",
      Val.num (paths_within_horizon_count current_inventory safety_stock samples))]

/-- A fitted Darts model, abstracted: `predict n k` stands for
`model.predict(n=n, num_samples=k).values()` as a list of `k` sample paths of
length `n` each (Darts' documented output shape).  Fitting is deterministic
for a fixed random seed, so a plain function is faithful. -/
structure FittedModel where
  predict : ℕ → ℕ → List (List ℚ)
  predict_count : ∀ n k, (predict n k).length = k
  predict_len : ∀ n k p, p ∈ predict n k → p.length = n

/-- `forecast_demand` (forecast.py lines 112-142) downstream of the fitted
model: the deterministic point forecast, plus the sample ensemble when more
than one sample is requested. -/
def forecast_demand (m : FittedModel) (horizon : ℕ) (num_samples : ℕ) :
    List ℚ × Option (List (List ℚ)) :=
  if num_samples ≤ 1 then ((m.predict horizon 1).flatten, none)
  else ((m.predict horizon 1).flatten, some (m.predict horizon num_samples))

/-- `start_date = last observed date + 1 day` (forecast.py lines 253-256). -/
def start_date_of (demand_series : List (ℤ × ℚ)) : ℤ :=
  (demand_series.map Prod.fst).getLastD 0 + 1

/-- Dict read `r[k]` on a dict known to contain `k`. -/
def lookupD (r : List (String × Val)) (k : String) : Val :=
  (r.lookup k).getD Val.null

/-- An optional string field value (`product_type`, `store_name`). -/
def optStr : Option String → Val
  | some s => Val.str s
  | none => Val.null

/-- The first seven entries of the result dict assembled by
`run_forecast_from_series` (forecast.py lines 258-266). -/
def result_base (point_values : List ℚ) (demand_series : List (ℤ × ℚ))
    (current_inventory : ℚ) (horizon : ℕ) (product_type store_name : Option String) :
    List (String × Val) :=
  [("product_type", optStr product_type),
   ("store_name", optStr store_name),
   ("current_inventory", Val.num current_inventory),
   ("horizon_days", Val.num (horizon : ℚ)),
   ("predicted_demand_per_day", Val.qlist point_values),
   ("predicted_stock_needed", Val.num (pyRound2 ((point_values.map (fun x => max 0 x)).sum))),
   ("demand_history_days", Val.num (demand_series.length : ℚ))]

/-- The entries copied from the restock dict in the probabilistic branch
(forecast.py lines 268-281); note `paths_within_horizon` is not among them. -/
def result_prob_fields (current_inventory : ℚ) (samples : List (List ℚ))
    (start_date : ℤ) (safety_stock : ℚ) : List (String × Val) :=
  let restock := restock_date_with_confidence current_inventory samples
    start_date safety_stock
  [("restock_date_median", lookupD restock "restock_date_median"),
   ("restock_date_low", lookupD restock "restock_date_low"),
   ("restock_date_high", lookupD restock "restock_date_high"),
   ("restock_confidence_level", lookupD restock "confidence_level"),
   ("restock_day_median", lookupD restock "restock_day_median"),
   ("restock_day_low", lookupD restock "restock_day_low"),
   ("restock_day_high", lookupD restock "restock_day_high")]

/-- The entries of the deterministic (single-path) branch
(forecast.py lines 282-290). -/
def result_det_fields (current_inventory : ℚ) (point_values : List ℚ)
    (start_date : ℤ) (horizon : ℕ) (safety_stock : ℚ) : List (String × Val) :=
  match restock_day_from_path current_inventory point_values safety_stock with
  | some day =>
    [("restock_date_median", Val.date (start_date + day)),
     ("restock_confidence_level", Val.null)]
  | none =>
    [("restock_date_median", Val.date (start_date + horizon)),
     ("restock_confidence_level", Val.null)]

/-- `run_forecast_from_series` (forecast.py lines 224-292), the DB-free entry
point: re-validate the minimum history, run the model, and assemble the final
result dict.  The Python `ValueError` is the `InsufficientHistory` outcome. -/
def run_forecast_from_series (m : FittedModel) (demand_series : List (ℤ × ℚ))
    (current_inventory : ℚ) (horizon : ℕ) (safety_stock : ℚ) (num_samples : ℕ)
    (product_type store_name : Option String) :
    Except ForecastError (List (String × Val)) :=
  if demand_series.length < MIN_DAYS_FOR_FORECAST then
    Except.error ForecastError.insufficientHistory
  else
    let pf := forecast_demand m horizon num_samples
    let base := result_base pf.1 demand_series current_inventory horizon
      product_type store_name
    match pf.2 with
    | some samples =>
      Except.ok (base ++ result_prob_fields current_inventory samples
        (start_date_of demand_series) safety_stock)
    | none =>
      Except.ok (base ++ result_det_fields current_inventory pf.1
        (start_date_of demand_series) horizon safety_stock)

/-- The latest-EOD inventory query of `run_forecast` (forecast.py lines
311-322): the count of the requested product in the most recent `"EOD"`
snapshot carrying one, else `0`.  The input list is in timestamp order. -/
def latest_eod_count (snapshots : List Snapshot) (product_type : String) : ℚ :=
  let vals := snapshots.filterMap (fun s =>
    if s.time_of_day = "EOD" then
      (s.counts.filterMap (fun c => if c.1 = product_type then some c.2 else none)).getLast?
    else none)
  match vals.getLast? with
  | some c => (c : ℚ)
  | none => 0

/-- `run_forecast` (forecast.py lines 295-332), the DB pipeline: build the
demand series, short-circuit to `None` on insufficient history (never reaching
the model), else fetch the on-hand count and delegate. -/
def run_forecast (m : FittedModel) (snapshots : List Snapshot) (product_type : String)
    (store_name : Option String) (horizon : ℕ) (safety_stock : ℚ) :
    Option (Except ForecastError (List (String × Val))) :=
  match build_daily_demand_series snapshots product_type store_name with
  | none => none
  | some series =>
    if series.length < MIN_DAYS_FOR_FORECAST then none
    else some (run_forecast_from_series m
      (series.map (fun r => (r.1, (r.2 : ℚ))))
      (latest_eod_count snapshots product_type)
      horizon safety_stock NUM_SAMPLES (some product_type) store_name)

/-- Modelled from the spec: the HTTP entry point (`GET /forecast`) is referenced
by the repository's standalone test and seed scripts but its handler is not
among the given source files.  Per the spec the horizon is "bounded to [1, 90]
by the caller" and `InvalidParameter` (horizon or safety stock outside the
configured bounds) is "rejected before any computation begins"
(spec sections 4.2 and 7). -/
def forecast_endpoint (m : FittedModel) (snapshots : List Snapshot)
    (product_type : String) (store_name : Option String) (horizon : ℤ)
    (safety_stock : ℚ) : Except ForecastError (List (String × Val)) :=
  if horizon < 1 ∨ 90 < horizon ∨ safety_stock < 0 then
    Except.error ForecastError.invalidParameter
  else
    match run_forecast m snapshots product_type store_name horizon.toNat safety_stock with
    | none => Except.error ForecastError.insufficientHistory
    | some r => r

/-- Ordering on optional restock days: an undefined day (`none`) counts as
later than every defined one. -/
def dayLE (x y : Option ℕ) : Prop :=
  match x, y with
  | some i, some j => i ≤ j
  | some _, none => True
  | none, some _ => False
  | none, none => True

/-- Read the stored count for one day and one time-of-day marker. -/
def todLookup (bd : ByDate) (d : ℤ) (tod : String) : Option ℤ :=
  (bd.lookup d).bind (fun m => m.lookup tod)

/-- A concrete fitted model whose every sample path predicts a constant
demand of `q` units per day; used to instantiate the theorems below. -/
def constModel (q : ℚ) : FittedModel where
  predict := fun n k => List.replicate k (List.replicate n q)
  predict_count := by
    intro n k
    simp
  predict_len := by
    intro n k p hp
    rw [List.eq_of_mem_replicate hp]
    simp

/-! ### Lemmas about the per-path depletion simulation -/

lemma restock_day_eq_some_iff (inv safety : ℚ) (p : List ℚ) (i : ℕ) :
    restock_day_from_path inv p safety = some i ↔
      i < p.length ∧ inv - (p.take (i+1)).sum ≤ safety ∧
        ∀ j < i, safety < inv - (p.take (j+1)).sum := by
  induction p generalizing inv i with
  | nil => simp [restock_day_from_path]
  | cons d rest ih =>
    simp only [restock_day_from_path]
    by_cases hd : inv - d ≤ safety
    · simp only [hd, if_true]
      cases i with
      | zero =>
        simp [List.take_succ_cons]
        linarith
      | succ i =>
        simp only [List.length_cons, List.take_succ_cons]
        constructor
        · intro h; exact absurd h (by simp)
        · rintro ⟨-, -, hall⟩
          have h0 := hall 0 (Nat.succ_pos _)
          simp [List.take_succ_cons] at h0
          linarith
    · simp only [hd, if_false]
      cases i with
      | zero =>
        simp only [Option.map_eq_some', List.take_succ_cons]
        constructor
        · rintro ⟨a, -, ha⟩; omega
        · rintro ⟨-, habs, -⟩
          simp at habs
          linarith
      | succ i =>
        simp only [Option.map_eq_some']
        constructor
        · rintro ⟨a, ha, hai⟩
          obtain rfl : a = i := by omega
          rw [ih] at ha
          obtain ⟨hlen, hle, hall⟩ := ha
          refine ⟨by simpa using hlen, ?_, ?_⟩
          · simp [List.take_succ_cons]
            linarith [hle]
          · intro j hj
            cases j with
            | zero =>
              simp [List.take_succ_cons]
              linarith [not_le.mp hd]
            | succ j =>
              have := hall j (by omega)
              simp [List.take_succ_cons]
              linarith [this]
        · rintro ⟨hlen, hle, hall⟩
          refine ⟨i, ?_, rfl⟩
          rw [ih]
          refine ⟨by simpa using hlen, ?_, ?_⟩
          · have := hle
            simp [List.take_succ_cons] at this
            linarith
          · intro j hj
            have := hall (j+1) (by omega)
            simp [List.take_succ_cons] at this
            linarith

lemma restock_day_eq_none_iff (inv safety : ℚ) (p : List ℚ) :
    restock_day_from_path inv p safety = none ↔
      ∀ j < p.length, safety < inv - (p.take (j+1)).sum := by
  induction p generalizing inv with
  | nil => simp [restock_day_from_path]
  | cons d rest ih =>
    simp only [restock_day_from_path]
    by_cases hd : inv - d ≤ safety
    · simp only [hd, if_true]
      constructor
      · intro h; exact absurd h (by simp)
      · intro hall
        have h0 := hall 0 (by simp)
        simp [List.take_succ_cons] at h0
        linarith
    · simp only [hd, if_false, Option.map_eq_none']
      rw [ih]
      constructor
      · intro hall j hj
        cases j with
        | zero =>
          simp [List.take_succ_cons]
          linarith [not_le.mp hd]
        | succ j =>
          have := hall j (by simpa using hj)
          simp [List.take_succ_cons]
          linarith [this]
      · intro hall j hj
        have := hall (j+1) (by simpa using hj)
        simp [List.take_succ_cons] at this
        linarith

lemma restock_day_lt_length (inv safety : ℚ) (p : List ℚ) (i : ℕ)
    (h : restock_day_from_path inv p safety = some i) : i < p.length :=
  ((restock_day_eq_some_iff inv safety p i).mp h).1

lemma restock_day_mono (p : List ℚ) (safety a b : ℚ) (hab : a ≤ b) :
    dayLE (restock_day_from_path a p safety) (restock_day_from_path b p safety) := by
  induction p generalizing a b with
  | nil => simp [restock_day_from_path, dayLE]
  | cons d rest ih =>
    simp only [restock_day_from_path]
    by_cases hb : b - d ≤ safety
    · have ha : a - d ≤ safety := by linarith
      simp [ha, hb, dayLE]
    · by_cases ha : a - d ≤ safety
      · simp only [ha, hb, if_true, if_false]
        cases hrb : restock_day_from_path (b - d) rest safety <;> simp [dayLE]
      · simp only [ha, hb, if_false]
        have hrec := ih (a - d) (b - d) (by linarith)
        cases hra : restock_day_from_path (a - d) rest safety <;>
          cases hrb : restock_day_from_path (b - d) rest safety <;>
            simp_all [dayLE]

/-! ### Lemmas about sorting, linear interpolation and quantiles -/

lemma npSort_sorted (xs : List ℚ) : (npSort xs).Sorted (· ≤ ·) :=
  List.sorted_insertionSort _ xs

lemma npSort_perm (xs : List ℚ) : (npSort xs).Perm xs :=
  List.perm_insertionSort _ xs

lemma npSort_length (xs : List ℚ) : (npSort xs).length = xs.length :=
  (npSort_perm xs).length_eq

lemma npSort_mem (xs : List ℚ) (x : ℚ) : x ∈ npSort xs ↔ x ∈ xs :=
  (npSort_perm xs).mem_iff

lemma interp_eq (s : List ℚ) (h : ℚ) :
    interp s h = s.getD ((⌊h⌋).toNat) 0 + (h - (((⌊h⌋).toNat : ℕ) : ℚ)) *
      (s.getD ((⌊h⌋).toNat + 1) (s.getD ((⌊h⌋).toNat) 0) - s.getD ((⌊h⌋).toNat) 0) := rfl

lemma cast_toNat_floor (h : ℚ) (h0 : 0 ≤ h) :
    (((⌊h⌋).toNat : ℕ) : ℚ) = ((⌊h⌋ : ℤ) : ℚ) := by
  have hnn : (0:ℤ) ≤ ⌊h⌋ := Int.floor_nonneg.mpr h0
  exact_mod_cast congrArg (fun z : ℤ => (z : ℚ)) (Int.toNat_of_nonneg hnn)

lemma sub_floor_nonneg (h : ℚ) (h0 : 0 ≤ h) : 0 ≤ h - (((⌊h⌋).toNat : ℕ) : ℚ) := by
  rw [cast_toNat_floor h h0]
  have := Int.floor_le h
  linarith

lemma sub_floor_lt_one (h : ℚ) (h0 : 0 ≤ h) : h - (((⌊h⌋).toNat : ℕ) : ℚ) < 1 := by
  rw [cast_toNat_floor h h0]
  have := Int.lt_floor_add_one h
  linarith

lemma sorted_getD_mono (s : List ℚ) (hs : s.Sorted (· ≤ ·)) (i j : ℕ) (d1 d2 : ℚ)
    (hij : i ≤ j) (hj : j < s.length) : s.getD i d1 ≤ s.getD j d2 := by
  have hi : i < s.length := lt_of_le_of_lt hij hj
  rw [List.getD_eq_getElem s d1 hi, List.getD_eq_getElem s d2 hj]
  rcases eq_or_lt_of_le hij with rfl | hlt
  · exact le_refl _
  · have := hs.rel_get_of_lt (show (⟨i, hi⟩ : Fin s.length) < ⟨j, hj⟩ from hlt)
    simpa [List.get_eq_getElem] using this

lemma hi_ge_lo (s : List ℚ) (hs : s.Sorted (· ≤ ·)) (f : ℕ) :
    s.getD f 0 ≤ s.getD (f+1) (s.getD f 0) := by
  by_cases hlt : f + 1 < s.length
  · exact sorted_getD_mono s hs f (f+1) 0 (s.getD f 0) (Nat.le_succ f) hlt
  · rw [List.getD_eq_default s (s.getD f 0) (show s.length ≤ f + 1 by omega)]

lemma lo_le_interp (s : List ℚ) (hs : s.Sorted (· ≤ ·)) (h : ℚ) (h0 : 0 ≤ h) :
    s.getD ((⌊h⌋).toNat) 0 ≤ interp s h := by
  rw [interp_eq]
  have hg0 := sub_floor_nonneg h h0
  have hhl := hi_ge_lo s hs ((⌊h⌋).toNat)
  nlinarith

lemma interp_le_hi (s : List ℚ) (hs : s.Sorted (· ≤ ·)) (h : ℚ) (h0 : 0 ≤ h) :
    interp s h ≤ s.getD ((⌊h⌋).toNat + 1) (s.getD ((⌊h⌋).toNat) 0) := by
  rw [interp_eq]
  have hg1 := sub_floor_lt_one h h0
  have hg0 := sub_floor_nonneg h h0
  have hhl := hi_ge_lo s hs ((⌊h⌋).toNat)
  nlinarith

lemma floor_toNat_lt (h : ℚ) (n : ℕ) (hn : 1 ≤ n) (hle : h ≤ (n:ℚ) - 1) :
    (⌊h⌋).toNat < n := by
  have hfl : ⌊h⌋ ≤ (n:ℤ) - 1 := by
    have h1 := Int.floor_le_floor hle
    rwa [show ((n:ℚ) - 1) = (((n:ℤ) - 1 : ℤ) : ℚ) by push_cast; ring,
      Int.floor_intCast] at h1
  omega

lemma interp_mono (s : List ℚ) (hs : s.Sorted (· ≤ ·)) (h₁ h₂ : ℚ)
    (h0 : 0 ≤ h₁) (h12 : h₁ ≤ h₂) (hup : h₂ ≤ (s.length : ℚ) - 1) :
    interp s h₁ ≤ interp s h₂ := by
  have h02 : 0 ≤ h₂ := le_trans h0 h12
  have hn : 1 ≤ s.length := by
    by_contra hc
    push_neg at hc
    have h0len : s.length = 0 := by omega
    rw [h0len] at hup
    norm_num at hup
    linarith
  have hf2 : (⌊h₂⌋).toNat < s.length := floor_toNat_lt h₂ s.length hn hup
  have hff : (⌊h₁⌋).toNat ≤ (⌊h₂⌋).toNat :=
    Int.toNat_le_toNat (Int.floor_le_floor h12)
  rcases eq_or_lt_of_le hff with heq | hlt
  · rw [interp_eq, interp_eq, ← heq]
    have hhl := hi_ge_lo s hs ((⌊h₁⌋).toNat)
    have e1 : (((⌊h₁⌋).toNat : ℕ) : ℚ) = ((⌊h₁⌋ : ℤ) : ℚ) := cast_toNat_floor h₁ h0
    have e2 : (((⌊h₂⌋).toNat : ℕ) : ℚ) = ((⌊h₂⌋ : ℤ) : ℚ) := cast_toNat_floor h₂ h02
    have efl : ((⌊h₁⌋ : ℤ) : ℚ) = ((⌊h₂⌋ : ℤ) : ℚ) := by
      have hnn1 : (0:ℤ) ≤ ⌊h₁⌋ := Int.floor_nonneg.mpr h0
      have hnn2 : (0:ℤ) ≤ ⌊h₂⌋ := Int.floor_nonneg.mpr h02
      have : ⌊h₁⌋ = ⌊h₂⌋ := by omega
      exact_mod_cast congrArg (fun z : ℤ => (z : ℚ)) this
    rw [e1, efl, ← e2]
    nlinarith
  · calc interp s h₁ ≤ s.getD ((⌊h₁⌋).toNat + 1) (s.getD ((⌊h₁⌋).toNat) 0) :=
          interp_le_hi s hs h₁ h0
      _ ≤ s.getD ((⌊h₂⌋).toNat) 0 :=
          sorted_getD_mono s hs _ _ _ _ hlt hf2
      _ ≤ interp s h₂ := lo_le_interp s hs h₂ h02

lemma interp_le_of_mem_le (s : List ℚ) (B : ℚ) (hB : ∀ x ∈ s, x ≤ B) (h : ℚ)
    (h0 : 0 ≤ h) (hfl : (⌊h⌋).toNat < s.length) : interp s h ≤ B := by
  rw [interp_eq]
  have hg0 := sub_floor_nonneg h h0
  have hg1 := sub_floor_lt_one h h0
  have hlo : s.getD ((⌊h⌋).toNat) 0 ≤ B := by
    rw [List.getD_eq_getElem s _ hfl]
    exact hB _ (List.getElem_mem hfl)
  have hhi : s.getD ((⌊h⌋).toNat + 1) (s.getD ((⌊h⌋).toNat) 0) ≤ B := by
    by_cases hlt : (⌊h⌋).toNat + 1 < s.length
    · rw [List.getD_eq_getElem s _ hlt]
      exact hB _ (List.getElem_mem hlt)
    · rw [List.getD_eq_default s _ (by omega)]
      exact hlo
  nlinarith

lemma interp_const (s : List ℚ) (c : ℚ) (hc : ∀ x ∈ s, x = c) (h : ℚ)
    (hfl : (⌊h⌋).toNat < s.length) : interp s h = c := by
  rw [interp_eq]
  have hlo : s.getD ((⌊h⌋).toNat) 0 = c := by
    rw [List.getD_eq_getElem s _ hfl]
    exact hc _ (List.getElem_mem hfl)
  have hhi : s.getD ((⌊h⌋).toNat + 1) c = c := by
    by_cases hlt : (⌊h⌋).toNat + 1 < s.length
    · rw [List.getD_eq_getElem s _ hlt]
      exact hc _ (List.getElem_mem hlt)
    · rw [List.getD_eq_default s _ (by omega)]
  rw [hlo, hhi]
  ring

lemma np_quantile_mono (xs : List ℚ) (hne : xs ≠ []) (q₁ q₂ : ℚ)
    (h1 : 0 ≤ q₁) (h12 : q₁ ≤ q₂) (h2 : q₂ ≤ 1) :
    np_quantile xs q₁ ≤ np_quantile xs q₂ := by
  unfold np_quantile
  have hn : 1 ≤ xs.length := List.length_pos.mpr hne
  have hc : (1:ℚ) ≤ (xs.length : ℚ) := by exact_mod_cast hn
  apply interp_mono (npSort xs) (npSort_sorted xs)
  · exact mul_nonneg h1 (by linarith)
  · exact mul_le_mul_of_nonneg_right h12 (by linarith)
  · rw [npSort_length]
    nlinarith

lemma np_quantile_le_of_le (xs : List ℚ) (B : ℚ) (hB : ∀ x ∈ xs, x ≤ B)
    (hne : xs ≠ []) (q : ℚ) (h0 : 0 ≤ q) (h1 : q ≤ 1) : np_quantile xs q ≤ B := by
  unfold np_quantile
  have hn : 1 ≤ xs.length := List.length_pos.mpr hne
  have hc : (1:ℚ) ≤ (xs.length : ℚ) := by exact_mod_cast hn
  apply interp_le_of_mem_le
  · intro x hx
    exact hB x ((npSort_mem xs x).mp hx)
  · exact mul_nonneg h0 (by linarith)
  · rw [npSort_length]
    exact floor_toNat_lt _ _ hn (by nlinarith)

lemma np_quantile_const (xs : List ℚ) (c : ℚ) (hc : ∀ x ∈ xs, x = c)
    (hne : xs ≠ []) (q : ℚ) (h0 : 0 ≤ q) (h1 : q ≤ 1) : np_quantile xs q = c := by
  unfold np_quantile
  have hn : 1 ≤ xs.length := List.length_pos.mpr hne
  have hcast : (1:ℚ) ≤ (xs.length : ℚ) := by exact_mod_cast hn
  apply interp_const
  · intro x hx
    exact hc x ((npSort_mem xs x).mp hx)
  · rw [npSort_length]
    exact floor_toNat_lt _ _ hn (by nlinarith)

lemma np_median_eq_quantile (xs : List ℚ) (hne : xs ≠ []) :
    np_median xs = np_quantile xs (1/2) := by
  unfold np_median np_quantile
  have hn : 1 ≤ xs.length := List.length_pos.mpr hne
  have hlen : (npSort xs).length = xs.length := npSort_length xs
  by_cases hpar : (npSort xs).length % 2 = 1
  · obtain ⟨m, hm⟩ : ∃ m, xs.length = 2*m + 1 := ⟨xs.length / 2, by omega⟩
    have hh : (1/2 : ℚ) * ((xs.length : ℚ) - 1) = (m : ℕ) := by
      rw [hm]
      push_cast
      ring
    have hfl : ⌊(1/2 : ℚ) * ((xs.length : ℚ) - 1)⌋ = (m : ℤ) := by
      rw [hh, Int.floor_natCast]
    simp only [hpar, if_true]
    rw [interp_eq, hfl, Int.toNat_natCast, hh]
    have e2 : (npSort xs).length / 2 = m := by omega
    rw [e2]
    push_cast
    ring
  · obtain ⟨m, hm⟩ : ∃ m, xs.length = 2*m := ⟨xs.length / 2, by omega⟩
    have hm1 : 1 ≤ m := by omega
    have hh : (1/2 : ℚ) * ((xs.length : ℚ) - 1) = (m : ℚ) - 1/2 := by
      rw [hm]
      push_cast
      ring
    have hfl : ⌊(1/2 : ℚ) * ((xs.length : ℚ) - 1)⌋ = (m : ℤ) - 1 := by
      rw [hh, Int.floor_eq_iff]
      constructor
      · push_cast
        linarith
      · push_cast
        linarith
    have htn : ((m : ℤ) - 1).toNat = m - 1 := by omega
    have hmr : m - 1 + 1 = m := by omega
    have hmlt : m < (npSort xs).length := by omega
    simp only [hpar, if_false]
    rw [interp_eq, hfl, htn, hh, hmr]
    have e1 : (npSort xs).getD m ((npSort xs).getD (m-1) 0) = (npSort xs).getD m 0 := by
      rw [List.getD_eq_getElem _ _ hmlt, List.getD_eq_getElem _ _ hmlt]
    have e2 : (npSort xs).length / 2 = m := by omega
    have e3 : ((m - 1 : ℕ) : ℚ) = (m : ℚ) - 1 := by
      rw [Nat.cast_sub hm1]
      norm_num
    rw [e1, e2, e3]
    ring

/-! ### Lemmas about rounding, date conversion and the day distributions -/

lemma pyRound_intCast (z : ℤ) : pyRound ((z : ℤ) : ℚ) = z := by
  unfold pyRound
  rw [Int.floor_intCast]
  norm_num

lemma pyRound_natCast (n : ℕ) : pyRound ((n : ℕ) : ℚ) = (n : ℤ) := by
  have := pyRound_intCast ((n : ℕ) : ℤ)
  rwa [show (((n:ℕ):ℤ):ℚ) = ((n:ℕ):ℚ) by push_cast; ring] at this

lemma day_to_date_le (start : ℤ) (n : ℕ) (x : ℚ) :
    day_to_date start n x ≤ start + n := by
  simp only [day_to_date]
  split <;> omega

lemma day_to_date_natCast (start : ℤ) (n : ℕ) :
    day_to_date start n ((n : ℕ) : ℚ) = start + n := by
  simp only [day_to_date, pyRound_natCast]
  simp

lemma days_for_quantile_length (inv safety : ℚ) (nd : ℕ) (samples : List (List ℚ)) :
    (days_for_quantile inv safety nd samples).length = samples.length := by
  simp [days_for_quantile, restock_days_of]

lemma days_for_quantile_ne_nil (inv safety : ℚ) (nd : ℕ) (samples : List (List ℚ))
    (h : samples ≠ []) : days_for_quantile inv safety nd samples ≠ [] := by
  intro hc
  apply h
  have hl := congrArg List.length hc
  rw [days_for_quantile_length] at hl
  simpa using List.length_eq_zero.mp (by simpa using hl)

lemma days_for_quantile_le (inv safety : ℚ) (nd : ℕ) (samples : List (List ℚ))
    (hw : ∀ p ∈ samples, p.length = nd) :
    ∀ x ∈ days_for_quantile inv safety nd samples, x ≤ (nd : ℚ) := by
  intro x hx
  unfold days_for_quantile at hx
  obtain ⟨d, hd, hdx⟩ := List.mem_map.mp hx
  obtain ⟨p, hp, hpd⟩ := List.mem_map.mp hd
  cases d with
  | none =>
    rw [← hdx]
  | some i =>
    rw [← hdx]
    show ((i : ℕ) : ℚ) ≤ (nd : ℚ)
    have hlt : i < p.length := restock_day_lt_length inv safety p i hpd
    rw [hw p hp] at hlt
    exact_mod_cast Nat.le_of_lt hlt

lemma days_for_quantile_const_of_none (inv safety : ℚ) (nd : ℕ)
    (samples : List (List ℚ))
    (hnone : ∀ p ∈ samples, restock_day_from_path inv p safety = none) :
    ∀ x ∈ days_for_quantile inv safety nd samples, x = (nd : ℚ) := by
  intro x hx
  unfold days_for_quantile at hx
  obtain ⟨d, hd, hdx⟩ := List.mem_map.mp hx
  obtain ⟨p, hp, hpd⟩ := List.mem_map.mp hd
  rw [hnone p hp] at hpd
  rw [← hpd] at hdx
  rw [← hdx]

lemma restock_day_low_le_median (inv safety : ℚ) (nd : ℕ)
    (samples : List (List ℚ)) (hne : samples ≠ []) :
    restock_day_low_val inv safety nd samples ≤
      restock_day_median_val inv safety nd samples := by
  unfold restock_day_low_val restock_day_median_val RESTOCK_QUANTILE_LOW
  rw [np_median_eq_quantile _ (days_for_quantile_ne_nil inv safety nd samples hne)]
  exact np_quantile_mono _ (days_for_quantile_ne_nil inv safety nd samples hne)
    (1/10) (1/2) (by norm_num) (by norm_num) (by norm_num)

lemma restock_day_median_le_high (inv safety : ℚ) (nd : ℕ)
    (samples : List (List ℚ)) (hne : samples ≠ []) :
    restock_day_median_val inv safety nd samples ≤
      restock_day_high_val inv safety nd samples := by
  unfold restock_day_median_val restock_day_high_val RESTOCK_QUANTILE_HIGH
  rw [np_median_eq_quantile _ (days_for_quantile_ne_nil inv safety nd samples hne)]
  exact np_quantile_mono _ (days_for_quantile_ne_nil inv safety nd samples hne)
    (1/2) (9/10) (by norm_num) (by norm_num) (by norm_num)

lemma restock_day_low_le_horizon (inv safety : ℚ) (nd : ℕ)
    (samples : List (List ℚ)) (hne : samples ≠ [])
    (hw : ∀ p ∈ samples, p.length = nd) :
    restock_day_low_val inv safety nd samples ≤ (nd : ℚ) := by
  unfold restock_day_low_val RESTOCK_QUANTILE_LOW
  exact np_quantile_le_of_le _ _ (days_for_quantile_le inv safety nd samples hw)
    (days_for_quantile_ne_nil inv safety nd samples hne) _ (by norm_num) (by norm_num)

lemma restock_day_median_le_horizon (inv safety : ℚ) (nd : ℕ)
    (samples : List (List ℚ)) (hne : samples ≠ [])
    (hw : ∀ p ∈ samples, p.length = nd) :
    restock_day_median_val inv safety nd samples ≤ (nd : ℚ) := by
  unfold restock_day_median_val
  rw [np_median_eq_quantile _ (days_for_quantile_ne_nil inv safety nd samples hne)]
  exact np_quantile_le_of_le _ _ (days_for_quantile_le inv safety nd samples hw)
    (days_for_quantile_ne_nil inv safety nd samples hne) _ (by norm_num) (by norm_num)

lemma restock_day_high_le_horizon (inv safety : ℚ) (nd : ℕ)
    (samples : List (List ℚ)) (hne : samples ≠ [])
    (hw : ∀ p ∈ samples, p.length = nd) :
    restock_day_high_val inv safety nd samples ≤ (nd : ℚ) := by
  unfold restock_day_high_val RESTOCK_QUANTILE_HIGH
  exact np_quantile_le_of_le _ _ (days_for_quantile_le inv safety nd samples hw)
    (days_for_quantile_ne_nil inv safety nd samples hne) _ (by norm_num) (by norm_num)

lemma restock_day_median_of_never (inv safety : ℚ) (nd : ℕ)
    (samples : List (List ℚ)) (hne : samples ≠ [])
    (hnone : ∀ p ∈ samples, restock_day_from_path inv p safety = none) :
    restock_day_median_val inv safety nd samples = (nd : ℚ) := by
  unfold restock_day_median_val
  rw [np_median_eq_quantile _ (days_for_quantile_ne_nil inv safety nd samples hne)]
  exact np_quantile_const _ _ (days_for_quantile_const_of_none inv safety nd samples hnone)
    (days_for_quantile_ne_nil inv safety nd samples hne) _ (by norm_num) (by norm_num)

/-! ### Lemmas about the result dictionaries and the abstract model -/

lemma lookup_append (l₁ l₂ : List (String × Val)) (k : String) :
    (l₁ ++ l₂).lookup k = ((l₁.lookup k).or (l₂.lookup k)) := by
  induction l₁ with
  | nil => simp [List.lookup]
  | cons p rest ih =>
    cases p with
    | mk q v =>
      by_cases h : k == q
      · simp [List.lookup, h]
      · simp [List.lookup, h, ih]

lemma rdwc_lookup_date_median (inv : ℚ) (samples : List (List ℚ)) (start : ℤ)
    (safety : ℚ) :
    (restock_date_with_confidence inv samples start safety).lookup "restock_date_median" =
      some (Val.date (day_to_date start (n_days_of samples)
        (restock_day_median_val inv safety (n_days_of samples) samples))) := rfl

lemma rdwc_lookup_date_low (inv : ℚ) (samples : List (List ℚ)) (start : ℤ)
    (safety : ℚ) :
    (restock_date_with_confidence inv samples start safety).lookup "restock_date_low" =
      some (Val.date (day_to_date start (n_days_of samples)
        (restock_day_low_val inv safety (n_days_of samples) samples))) := rfl

lemma rdwc_lookup_date_high (inv : ℚ) (samples : List (List ℚ)) (start : ℤ)
    (safety : ℚ) :
    (restock_date_with_confidence inv samples start safety).lookup "restock_date_high" =
      some (Val.date (day_to_date start (n_days_of samples)
        (restock_day_high_val inv safety (n_days_of samples) samples))) := rfl

lemma rdwc_lookup_day_median (inv : ℚ) (samples : List (List ℚ)) (start : ℤ)
    (safety : ℚ) :
    (restock_date_with_confidence inv samples start safety).lookup "restock_day_median" =
      some (Val.num (restock_day_median_val inv safety (n_days_of samples) samples)) := rfl

lemma rdwc_lookup_day_low (inv : ℚ) (samples : List (List ℚ)) (start : ℤ)
    (safety : ℚ) :
    (restock_date_with_confidence inv samples start safety).lookup "restock_day_low" =
      some (Val.num (restock_day_low_val inv safety (n_days_of samples) samples)) := rfl

lemma rdwc_lookup_day_high (inv : ℚ) (samples : List (List ℚ)) (start : ℤ)
    (safety : ℚ) :
    (restock_date_with_confidence inv samples start safety).lookup "restock_day_high" =
      some (Val.num (restock_day_high_val inv safety (n_days_of samples) samples)) := rfl

lemma rdwc_lookup_paths (inv : ℚ) (samples : List (List ℚ)) (start : ℤ)
    (safety : ℚ) :
    (restock_date_with_confidence inv samples start safety).lookup "paths_within_horizon" =
      some (Val.num ((paths_within_horizon_count inv safety samples : ℕ) : ℚ)) := rfl

lemma predict_point_length (m : FittedModel) (horizon : ℕ) :
    (m.predict horizon 1).flatten.length = horizon := by
  obtain ⟨p, hp⟩ := List.length_eq_one.mp (m.predict_count horizon 1)
  have hlen : p.length = horizon :=
    m.predict_len horizon 1 p (by rw [hp]; exact List.mem_singleton_self p)
  rw [hp]
  simpa using hlen

lemma forecast_demand_point (m : FittedModel) (horizon ns : ℕ) :
    (forecast_demand m horizon ns).1 = (m.predict horizon 1).flatten := by
  unfold forecast_demand
  split <;> rfl

lemma forecast_demand_samples (m : FittedModel) (horizon ns : ℕ) (hns : 1 < ns) :
    (forecast_demand m horizon ns).2 = some (m.predict horizon ns) := by
  unfold forecast_demand
  rw [if_neg (by omega)]

lemma forecast_demand_det (m : FittedModel) (horizon ns : ℕ) (hns : ns ≤ 1) :
    (forecast_demand m horizon ns).2 = none := by
  unfold forecast_demand
  rw [if_pos hns]

lemma predict_ne_nil (m : FittedModel) (n k : ℕ) (hk : 1 ≤ k) :
    m.predict n k ≠ [] := by
  intro hc
  have hcount := m.predict_count n k
  rw [hc] at hcount
  simp at hcount
  omega

lemma n_days_of_predict (m : FittedModel) (n k : ℕ) (hk : 1 ≤ k) :
    n_days_of (m.predict n k) = n := by
  unfold n_days_of
  cases hq : m.predict n k with
  | nil => exact absurd hq (predict_ne_nil m n k hk)
  | cons p rest =>
    simp only [List.headD_cons]
    exact m.predict_len n k p (by rw [hq]; exact List.mem_cons_self p rest)

lemma run_from_series_insufficient (m : FittedModel) (series : List (ℤ × ℚ))
    (inv : ℚ) (horizon : ℕ) (safety : ℚ) (ns : ℕ) (pt st : Option String)
    (hlen : series.length < MIN_DAYS_FOR_FORECAST) :
    run_forecast_from_series m series inv horizon safety ns pt st =
      Except.error ForecastError.insufficientHistory := by
  unfold run_forecast_from_series
  rw [if_pos hlen]

lemma run_from_series_prob (m : FittedModel) (series : List (ℤ × ℚ)) (inv : ℚ)
    (horizon : ℕ) (safety : ℚ) (ns : ℕ) (pt st : Option String)
    (hlen : ¬ series.length < MIN_DAYS_FOR_FORECAST) (hns : 1 < ns) :
    run_forecast_from_series m series inv horizon safety ns pt st =
      Except.ok (result_base (m.predict horizon 1).flatten series inv horizon pt st ++
        result_prob_fields inv (m.predict horizon ns) (start_date_of series) safety) := by
  unfold run_forecast_from_series
  rw [if_neg hlen]
  simp only [forecast_demand_samples m horizon ns hns, forecast_demand_point]

lemma run_from_series_det (m : FittedModel) (series : List (ℤ × ℚ)) (inv : ℚ)
    (horizon : ℕ) (safety : ℚ) (ns : ℕ) (pt st : Option String)
    (hlen : ¬ series.length < MIN_DAYS_FOR_FORECAST) (hns : ns ≤ 1) :
    run_forecast_from_series m series inv horizon safety ns pt st =
      Except.ok (result_base (m.predict horizon 1).flatten series inv horizon pt st ++
        result_det_fields inv (m.predict horizon 1).flatten (start_date_of series)
          horizon safety) := by
  unfold run_forecast_from_series
  rw [if_neg hlen]
  simp only [forecast_demand_det m horizon ns hns, forecast_demand_point]

lemma run_from_series_ok_cases (m : FittedModel) (series : List (ℤ × ℚ)) (inv : ℚ)
    (horizon : ℕ) (safety : ℚ) (ns : ℕ) (pt st : Option String)
    (r : List (String × Val))
    (hok : run_forecast_from_series m series inv horizon safety ns pt st = Except.ok r) :
    ¬ series.length < MIN_DAYS_FOR_FORECAST ∧
    ((1 < ns ∧ r = result_base (m.predict horizon 1).flatten series inv horizon pt st ++
        result_prob_fields inv (m.predict horizon ns) (start_date_of series) safety) ∨
     (ns ≤ 1 ∧ r = result_base (m.predict horizon 1).flatten series inv horizon pt st ++
        result_det_fields inv (m.predict horizon 1).flatten (start_date_of series)
          horizon safety)) := by
  by_cases hlen : series.length < MIN_DAYS_FOR_FORECAST
  · rw [run_from_series_insufficient m series inv horizon safety ns pt st hlen] at hok
    exact absurd hok (by simp)
  · refine ⟨hlen, ?_⟩
    by_cases hns : 1 < ns
    · left
      refine ⟨hns, ?_⟩
      rw [run_from_series_prob m series inv horizon safety ns pt st hlen hns] at hok
      simpa using hok.symm
    · right
      refine ⟨by omega, ?_⟩
      rw [run_from_series_det m series inv horizon safety ns pt st hlen (by omega)] at hok
      simpa using hok.symm

lemma base_lookup_stock (pv : List ℚ) (series : List (ℤ × ℚ)) (inv : ℚ)
    (horizon : ℕ) (pt st : Option String) :
    (result_base pv series inv horizon pt st).lookup "predicted_stock_needed" =
      some (Val.num (pyRound2 ((pv.map (fun x => max 0 x)).sum))) := rfl

lemma base_lookup_paths (pv : List ℚ) (series : List (ℤ × ℚ)) (inv : ℚ)
    (horizon : ℕ) (pt st : Option String) :
    (result_base pv series inv horizon pt st).lookup "paths_within_horizon" = none := rfl

lemma base_lookup_date_median (pv : List ℚ) (series : List (ℤ × ℚ)) (inv : ℚ)
    (horizon : ℕ) (pt st : Option String) :
    (result_base pv series inv horizon pt st).lookup "restock_date_median" = none := rfl

lemma base_lookup_date_low (pv : List ℚ) (series : List (ℤ × ℚ)) (inv : ℚ)
    (horizon : ℕ) (pt st : Option String) :
    (result_base pv series inv horizon pt st).lookup "restock_date_low" = none := rfl

lemma base_lookup_date_high (pv : List ℚ) (series : List (ℤ × ℚ)) (inv : ℚ)
    (horizon : ℕ) (pt st : Option String) :
    (result_base pv series inv horizon pt st).lookup "restock_date_high" = none := rfl

lemma prob_lookup_paths (inv : ℚ) (samples : List (List ℚ)) (start : ℤ) (safety : ℚ) :
    (result_prob_fields inv samples start safety).lookup "paths_within_horizon" = none := rfl

lemma prob_lookup_date_median (inv : ℚ) (samples : List (List ℚ)) (start : ℤ)
    (safety : ℚ) :
    (result_prob_fields inv samples start safety).lookup "restock_date_median" =
      some (Val.date (day_to_date start (n_days_of samples)
        (restock_day_median_val inv safety (n_days_of samples) samples))) := rfl

lemma prob_lookup_date_low (inv : ℚ) (samples : List (List ℚ)) (start : ℤ)
    (safety : ℚ) :
    (result_prob_fields inv samples start safety).lookup "restock_date_low" =
      some (Val.date (day_to_date start (n_days_of samples)
        (restock_day_low_val inv safety (n_days_of samples) samples))) := rfl

lemma prob_lookup_date_high (inv : ℚ) (samples : List (List ℚ)) (start : ℤ)
    (safety : ℚ) :
    (result_prob_fields inv samples start safety).lookup "restock_date_high" =
      some (Val.date (day_to_date start (n_days_of samples)
        (restock_day_high_val inv safety (n_days_of samples) samples))) := rfl

lemma det_lookup_paths (inv : ℚ) (pv : List ℚ) (start : ℤ) (horizon : ℕ)
    (safety : ℚ) :
    (result_det_fields inv pv start horizon safety).lookup "paths_within_horizon" = none := by
  unfold result_det_fields
  split <;> rfl

lemma det_lookup_date_low (inv : ℚ) (pv : List ℚ) (start : ℤ) (horizon : ℕ)
    (safety : ℚ) :
    (result_det_fields inv pv start horizon safety).lookup "restock_date_low" = none := by
  unfold result_det_fields
  split <;> rfl

lemma det_lookup_date_high (inv : ℚ) (pv : List ℚ) (start : ℤ) (horizon : ℕ)
    (safety : ℚ) :
    (result_det_fields inv pv start horizon safety).lookup "restock_date_high" = none := by
  unfold result_det_fields
  split <;> rfl

lemma det_lookup_date_median_some (inv : ℚ) (pv : List ℚ) (start : ℤ) (horizon : ℕ)
    (safety : ℚ) (day : ℕ) (h : restock_day_from_path inv pv safety = some day) :
    (result_det_fields inv pv start horizon safety).lookup "restock_date_median" =
      some (Val.date (start + day)) := by
  unfold result_det_fields
  rw [h]
  rfl

lemma det_lookup_date_median_none (inv : ℚ) (pv : List ℚ) (start : ℤ) (horizon : ℕ)
    (safety : ℚ) (h : restock_day_from_path inv pv safety = none) :
    (result_det_fields inv pv start horizon safety).lookup "restock_date_median" =
      some (Val.date (start + horizon)) := by
  unfold result_det_fields
  rw [h]
  rfl

lemma run_ok_no_paths_field (m : FittedModel) (series : List (ℤ × ℚ)) (inv : ℚ)
    (horizon : ℕ) (safety : ℚ) (ns : ℕ) (pt st : Option String)
    (r : List (String × Val))
    (hok : run_forecast_from_series m series inv horizon safety ns pt st = Except.ok r) :
    r.lookup "paths_within_horizon" = none := by
  obtain ⟨hlen, hcase | hcase⟩ :=
    run_from_series_ok_cases m series inv horizon safety ns pt st r hok
  · obtain ⟨hns, rfl⟩ := hcase
    rw [lookup_append, base_lookup_paths, prob_lookup_paths]
    rfl
  · obtain ⟨hns, rfl⟩ := hcase
    rw [lookup_append, base_lookup_paths, det_lookup_paths]
    rfl

lemma run_ok_stock_field (m : FittedModel) (series : List (ℤ × ℚ)) (inv : ℚ)
    (horizon : ℕ) (safety : ℚ) (ns : ℕ) (pt st : Option String)
    (r : List (String × Val))
    (hok : run_forecast_from_series m series inv horizon safety ns pt st = Except.ok r) :
    r.lookup "predicted_stock_needed" =
      some (Val.num (pyRound2
        ((((forecast_demand m horizon ns).1).map (fun x => max 0 x)).sum))) := by
  obtain ⟨hlen, hcase | hcase⟩ :=
    run_from_series_ok_cases m series inv horizon safety ns pt st r hok
  · obtain ⟨hns, rfl⟩ := hcase
    rw [lookup_append, base_lookup_stock, forecast_demand_point]
    rfl
  · obtain ⟨hns, rfl⟩ := hcase
    rw [lookup_append, base_lookup_stock, forecast_demand_point]
    rfl

lemma run_ok_date_le (m : FittedModel) (series : List (ℤ × ℚ)) (inv : ℚ)
    (horizon : ℕ) (safety : ℚ) (ns : ℕ) (pt st : Option String)
    (r : List (String × Val)) (k : String) (v : ℤ)
    (hok : run_forecast_from_series m series inv horizon safety ns pt st = Except.ok r)
    (hk : k = "restock_date_median" ∨ k = "restock_date_low" ∨ k = "restock_date_high")
    (hv : r.lookup k = some (Val.date v)) :
    v ≤ start_date_of series + horizon := by
  obtain ⟨hlen, hcase | hcase⟩ :=
    run_from_series_ok_cases m series inv horizon safety ns pt st r hok
  · obtain ⟨hns, rfl⟩ := hcase
    have hnd : n_days_of (m.predict horizon ns) = horizon :=
      n_days_of_predict m horizon ns (by omega)
    rcases hk with rfl | rfl | rfl
    · rw [lookup_append, base_lookup_date_median, prob_lookup_date_median] at hv
      simp only [Option.none_or, Option.some.injEq, Val.date.injEq] at hv
      rw [← hv]
      exact le_trans (day_to_date_le _ _ _) (by rw [hnd])
    · rw [lookup_append, base_lookup_date_low, prob_lookup_date_low] at hv
      simp only [Option.none_or, Option.some.injEq, Val.date.injEq] at hv
      rw [← hv]
      exact le_trans (day_to_date_le _ _ _) (by rw [hnd])
    · rw [lookup_append, base_lookup_date_high, prob_lookup_date_high] at hv
      simp only [Option.none_or, Option.some.injEq, Val.date.injEq] at hv
      rw [← hv]
      exact le_trans (day_to_date_le _ _ _) (by rw [hnd])
  · obtain ⟨hns, rfl⟩ := hcase
    rcases hk with rfl | rfl | rfl
    · cases hrd : restock_day_from_path inv (m.predict horizon 1).flatten safety with
      | some day =>
        rw [lookup_append, base_lookup_date_median,
          det_lookup_date_median_some inv _ _ horizon safety day hrd] at hv
        simp only [Option.none_or, Option.some.injEq, Val.date.injEq] at hv
        have hday : day < horizon := by
          have := restock_day_lt_length inv safety _ day hrd
          rwa [predict_point_length m horizon] at this
        omega
      | none =>
        rw [lookup_append, base_lookup_date_median,
          det_lookup_date_median_none inv _ _ horizon safety hrd] at hv
        simp only [Option.none_or, Option.some.injEq, Val.date.injEq] at hv
        omega
    · rw [lookup_append, base_lookup_date_low, det_lookup_date_low] at hv
      simp at hv
    · rw [lookup_append, base_lookup_date_high, det_lookup_date_high] at hv
      simp at hv

/-! ### Lemmas about the demand-series builder's grouping -/

lemma lookup_setTod (m : TodMap) (tod tod' : String) (c : ℤ) :
    (setTod m tod c).lookup tod' = if tod' = tod then some c else m.lookup tod' := by
  induction m with
  | nil =>
    by_cases h : tod' = tod
    · subst h
      simp [setTod, List.lookup]
    · simp [setTod, List.lookup, h, beq_eq_false_iff_ne.mpr h]
  | cons p rest ih =>
    cases p with
    | mk t v =>
      by_cases ht : t = tod
      · subst ht
        by_cases h' : tod' = t
        · subst h'
          simp [setTod, List.lookup]
        · simp [setTod, List.lookup, h', beq_eq_false_iff_ne.mpr h']
      · by_cases h' : tod' = t
        · subst h'
          simp [setTod, ht, List.lookup]
        · simp [setTod, ht, List.lookup, beq_eq_false_iff_ne.mpr h', ih]

lemma lookup_setByDate (bd : ByDate) (d d' : ℤ) (tod : String) (c : ℤ) :
    (setByDate bd d tod c).lookup d' =
      if d' = d then some (setTod ((bd.lookup d).getD []) tod c)
      else bd.lookup d' := by
  induction bd with
  | nil =>
    by_cases h : d' = d
    · subst h
      simp [setByDate, List.lookup, setTod]
    · simp [setByDate, List.lookup, h, beq_eq_false_iff_ne.mpr h]
  | cons p rest ih =>
    cases p with
    | mk k m =>
      by_cases hk : k = d
      · subst hk
        by_cases h' : d' = k
        · subst h'
          simp [setByDate, List.lookup]
        · simp [setByDate, List.lookup, h', beq_eq_false_iff_ne.mpr h']
      · by_cases h' : d' = k
        · subst h'
          simp [setByDate, hk, List.lookup]
        · simp [setByDate, hk, List.lookup, beq_eq_false_iff_ne.mpr h', h', ih,
            beq_eq_false_iff_ne.mpr (Ne.symm hk)]

lemma lookup_ensureDate (bd : ByDate) (d d' : ℤ) :
    (ensureDate bd d).lookup d' =
      if d' = d then some ((bd.lookup d).getD []) else bd.lookup d' := by
  induction bd with
  | nil =>
    by_cases h : d' = d
    · subst h
      simp [ensureDate, List.lookup]
    · simp [ensureDate, List.lookup, h, beq_eq_false_iff_ne.mpr h]
  | cons p rest ih =>
    cases p with
    | mk k m =>
      by_cases hk : k = d
      · subst hk
        by_cases h' : d' = k
        · subst h'
          simp [ensureDate, List.lookup]
        · simp [ensureDate, List.lookup, h', beq_eq_false_iff_ne.mpr h']
      · by_cases h' : d' = k
        · subst h'
          simp [ensureDate, hk, List.lookup]
        · simp [ensureDate, hk, List.lookup, beq_eq_false_iff_ne.mpr h', h', ih,
            beq_eq_false_iff_ne.mpr (Ne.symm hk)]

lemma todLookup_setByDate (bd : ByDate) (d : ℤ) (tod : String) (c : ℤ)
    (d' : ℤ) (tod' : String) :
    todLookup (setByDate bd d tod c) d' tod' =
      if d' = d ∧ tod' = tod then some c else todLookup bd d' tod' := by
  unfold todLookup
  rw [lookup_setByDate]
  by_cases hd : d' = d
  · subst hd
    rw [if_pos rfl]
    simp only [Option.some_bind, lookup_setTod]
    by_cases ht : tod' = tod
    · simp [ht]
    · simp only [ht, if_false, and_false, if_neg, not_false_iff]
      cases hbd : bd.lookup d' <;> simp [hbd]
  · rw [if_neg hd]
    simp [hd]

lemma todLookup_ensureDate (bd : ByDate) (d : ℤ) (d' : ℤ) (tod' : String) :
    todLookup (ensureDate bd d) d' tod' = todLookup bd d' tod' := by
  unfold todLookup
  rw [lookup_ensureDate]
  by_cases hd : d' = d
  · subst hd
    rw [if_pos rfl]
    cases hbd : bd.lookup d' <;> simp [hbd, List.lookup]
  · rw [if_neg hd]

lemma todLookup_isSome_countsFold (counts : List (String × ℤ)) (product tod : String)
    (d : ℤ) (bd : ByDate) (d' : ℤ) (tod' : String) :
    (todLookup (counts.foldl
        (fun bd c => if c.1 ≠ product then bd else setByDate bd d tod c.2) bd)
      d' tod').isSome = true ↔
      (todLookup bd d' tod').isSome = true ∨
        (d' = d ∧ tod' = tod ∧ ∃ c ∈ counts, c.1 = product) := by
  induction counts generalizing bd with
  | nil => simp
  | cons c rest ih =>
    rw [List.foldl_cons]
    by_cases hc : c.1 ≠ product
    · rw [if_pos hc, ih]
      constructor
      · rintro (h | ⟨h1, h2, x, hx, hp⟩)
        · exact Or.inl h
        · exact Or.inr ⟨h1, h2, x, List.mem_cons_of_mem c hx, hp⟩
      · rintro (h | ⟨h1, h2, x, hx, hp⟩)
        · exact Or.inl h
        · rcases List.mem_cons.mp hx with rfl | hx'
          · exact absurd hp hc
          · exact Or.inr ⟨h1, h2, x, hx', hp⟩
    · push_neg at hc
      rw [if_neg (by simp [hc])]
      rw [ih]
      rw [todLookup_setByDate]
      by_cases hdt : d' = d ∧ tod' = tod
      · rw [if_pos hdt]
        simp only [Option.isSome_some, true_or, true_iff]
        exact Or.inr ⟨hdt.1, hdt.2, c, List.mem_cons_self c rest, hc⟩
      · rw [if_neg hdt]
        constructor
        · rintro (h | ⟨h1, h2, x, hx, hp⟩)
          · exact Or.inl h
          · exact Or.inr ⟨h1, h2, x, List.mem_cons_of_mem c hx, hp⟩
        · rintro (h | ⟨h1, h2, x, hx, hp⟩)
          · exact Or.inl h
          · rcases List.mem_cons.mp hx with rfl | hx'
            · exact absurd ⟨h1, h2⟩ hdt
            · exact Or.inr ⟨h1, h2, x, hx', hp⟩

lemma todLookup_isSome_groupFold (snaps : List Snapshot) (product : String)
    (bd : ByDate) (d : ℤ) (tod : String) :
    (todLookup (snaps.foldl (snapshotStep product) bd) d tod).isSome = true ↔
      (todLookup bd d tod).isSome = true ∨
        ∃ s ∈ snaps, date_floor s.timestamp = d ∧ s.time_of_day = tod ∧
          ∃ c ∈ s.counts, c.1 = product := by
  induction snaps generalizing bd with
  | nil => simp
  | cons s rest ih =>
    rw [List.foldl_cons, ih]
    unfold snapshotStep
    rw [todLookup_isSome_countsFold]
    rw [todLookup_ensureDate]
    constructor
    · rintro ((h | ⟨h1, h2, x, hx, hp⟩) | ⟨s', hs', h1, h2, hex⟩)
      · exact Or.inl h
      · exact Or.inr ⟨s, List.mem_cons_self s rest, h1.symm, h2.symm, x, hx, hp⟩
      · exact Or.inr ⟨s', List.mem_cons_of_mem s hs', h1, h2, hex⟩
    · rintro (h | ⟨s', hs', h1, h2, hex⟩)
      · exact Or.inl (Or.inl h)
      · rcases List.mem_cons.mp hs' with rfl | hs''
        · exact Or.inl (Or.inr ⟨h1.symm, h2.symm, hex⟩)
        · exact Or.inr ⟨s', hs'', h1, h2, hex⟩

lemma todLookup_groupSnapshots (snaps : List Snapshot) (product : String)
    (d : ℤ) (tod : String) :
    (todLookup (groupSnapshots snaps product) d tod).isSome = true ↔
      ∃ s ∈ snaps, date_floor s.timestamp = d ∧ s.time_of_day = tod ∧
        ∃ c ∈ s.counts, c.1 = product := by
  unfold groupSnapshots
  rw [todLookup_isSome_groupFold]
  simp [todLookup, List.lookup]

lemma mem_keys_setByDate (bd : ByDate) (d : ℤ) (tod : String) (c : ℤ) (k : ℤ) :
    k ∈ (setByDate bd d tod c).map Prod.fst ↔ k ∈ bd.map Prod.fst ∨ k = d := by
  induction bd with
  | nil => simp [setByDate]
  | cons p rest ih =>
    cases p with
    | mk k' m =>
      by_cases hk : k' = d
      · subst hk
        simp [setByDate]
        tauto
      · simp [setByDate, hk, ih]
        tauto

lemma mem_keys_ensureDate (bd : ByDate) (d : ℤ) (k : ℤ) :
    k ∈ (ensureDate bd d).map Prod.fst ↔ k ∈ bd.map Prod.fst ∨ k = d := by
  induction bd with
  | nil => simp [ensureDate]
  | cons p rest ih =>
    cases p with
    | mk k' m =>
      by_cases hk : k' = d
      · subst hk
        simp [ensureDate]
        tauto
      · simp [ensureDate, hk, ih]
        tauto

lemma keys_nodup_setByDate (bd : ByDate) (d : ℤ) (tod : String) (c : ℤ)
    (hnd : (bd.map Prod.fst).Nodup) : ((setByDate bd d tod c).map Prod.fst).Nodup := by
  induction bd with
  | nil => simp [setByDate]
  | cons p rest ih =>
    cases p with
    | mk k' m =>
      simp only [List.map_cons, List.nodup_cons] at hnd
      by_cases hk : k' = d
      · subst hk
        simpa [setByDate] using hnd
      · simp only [setByDate, hk, if_neg, not_false_iff, List.map_cons, List.nodup_cons]
        refine ⟨?_, ih hnd.2⟩
        rw [mem_keys_setByDate]
        rintro (h | rfl)
        · exact hnd.1 h
        · exact hk rfl

lemma keys_nodup_ensureDate (bd : ByDate) (d : ℤ)
    (hnd : (bd.map Prod.fst).Nodup) : ((ensureDate bd d).map Prod.fst).Nodup := by
  induction bd with
  | nil => simp [ensureDate]
  | cons p rest ih =>
    cases p with
    | mk k' m =>
      simp only [List.map_cons, List.nodup_cons] at hnd
      by_cases hk : k' = d
      · subst hk
        simpa [ensureDate] using hnd
      · simp only [ensureDate, hk, if_neg, not_false_iff, List.map_cons, List.nodup_cons]
        refine ⟨?_, ih hnd.2⟩
        rw [mem_keys_ensureDate]
        rintro (h | rfl)
        · exact hnd.1 h
        · exact hk rfl

lemma keys_nodup_countsFold (counts : List (String × ℤ)) (product tod : String)
    (d : ℤ) (bd : ByDate) (hnd : (bd.map Prod.fst).Nodup) :
    ((counts.foldl
        (fun bd c => if c.1 ≠ product then bd else setByDate bd d tod c.2) bd).map
      Prod.fst).Nodup := by
  induction counts generalizing bd with
  | nil => exact hnd
  | cons c rest ih =>
    rw [List.foldl_cons]
    by_cases hc : c.1 ≠ product
    · rw [if_pos hc]
      exact ih bd hnd
    · rw [if_neg hc]
      exact ih _ (keys_nodup_setByDate bd d tod c.2 hnd)

lemma keys_nodup_groupFold (snaps : List Snapshot) (product : String) (bd : ByDate)
    (hnd : (bd.map Prod.fst).Nodup) :
    ((snaps.foldl (snapshotStep product) bd).map Prod.fst).Nodup := by
  induction snaps generalizing bd with
  | nil => exact hnd
  | cons s rest ih =>
    rw [List.foldl_cons]
    exact ih _ (keys_nodup_countsFold s.counts product s.time_of_day
      (date_floor s.timestamp) _ (keys_nodup_ensureDate bd (date_floor s.timestamp) hnd))

lemma keys_nodup_groupSnapshots (snaps : List Snapshot) (product : String) :
    ((groupSnapshots snaps product).map Prod.fst).Nodup :=
  keys_nodup_groupFold snaps product [] (by simp)

instance : IsTotal (ℤ × TodMap) (fun a b => a.1 ≤ b.1) :=
  ⟨fun a b => le_total a.1 b.1⟩

instance : IsTrans (ℤ × TodMap) (fun a b => a.1 ≤ b.1) :=
  ⟨fun _ _ _ hab hbc => le_trans hab hbc⟩

lemma sortItems_perm (bd : ByDate) : (sortItems bd).Perm bd :=
  List.perm_insertionSort _ bd

lemma sortItems_pairwise_lt (bd : ByDate) (hnd : (bd.map Prod.fst).Nodup) :
    (sortItems bd).Pairwise (fun a b => a.1 < b.1) := by
  have hs : (sortItems bd).Pairwise (fun a b => a.1 ≤ b.1) :=
    List.sorted_insertionSort _ bd
  have hnd' : ((sortItems bd).map Prod.fst).Nodup :=
    (((sortItems_perm bd).map Prod.fst).nodup_iff).mpr hnd
  have hne : (sortItems bd).Pairwise (fun a b => a.1 ≠ b.1) :=
    List.pairwise_map.mp hnd'
  exact (hs.and hne).imp (fun h => lt_of_le_of_ne h.1 h.2)

lemma key_pairwise_filterMap (l : List (ℤ × TodMap)) (R : ℤ → ℤ → Prop)
    (f : ℤ × TodMap → Option (ℤ × ℤ))
    (hf : ∀ x y, f x = some y → y.1 = x.1)
    (h : l.Pairwise (fun a b => R a.1 b.1)) :
    (l.filterMap f).Pairwise (fun a b => R a.1 b.1) := by
  induction l with
  | nil => simp
  | cons a rest ih =>
    rw [List.pairwise_cons] at h
    rw [List.filterMap_cons]
    cases hfa : f a with
    | none => exact ih h.2
    | some b =>
      rw [List.pairwise_cons]
      refine ⟨?_, ih h.2⟩
      intro y hy
      obtain ⟨x, hx, hxy⟩ := List.mem_filterMap.mp hy
      rw [hf a b hfa, hf x y hxy]
      exact h.1 x hx

lemma demandRows_pairwise_lt (bd : ByDate) (hnd : (bd.map Prod.fst).Nodup) :
    (demandRows bd).Pairwise (fun a b => a.1 < b.1) := by
  unfold demandRows
  apply key_pairwise_filterMap
  · intro x y hxy
    cases hAM : x.2.lookup "AM" with
    | none => simp [hAM] at hxy
    | some am =>
      cases hEOD : x.2.lookup "EOD" with
      | none => simp [hAM, hEOD] at hxy
      | some eod =>
        simp only [hAM, hEOD, Option.some.injEq] at hxy
        rw [← hxy]
  · exact sortItems_pairwise_lt bd hnd

lemma lookup_eq_of_mem_of_nodup (bd : ByDate) (d : ℤ) (tm : TodMap)
    (hmem : (d, tm) ∈ bd) (hnd : (bd.map Prod.fst).Nodup) : bd.lookup d = some tm := by
  induction bd with
  | nil => simp at hmem
  | cons p rest ih =>
    obtain ⟨k, m⟩ := p
    simp only [List.map_cons, List.nodup_cons] at hnd
    rcases List.mem_cons.mp hmem with heq | hmem2
    · injection heq with h1 h2
      subst h1
      subst h2
      simp [List.lookup]
    · have hne : (d == k) = false := by
        apply beq_eq_false_iff_ne.mpr
        intro hc
        subst hc
        exact hnd.1 (List.mem_map.mpr ⟨(d, tm), hmem2, rfl⟩)
      simp only [List.lookup, hne]
      exact ih hmem2 hnd.2

lemma mem_demandRows (bd : ByDate) (x : ℤ × ℤ) :
    x ∈ demandRows bd ↔ ∃ tm am eod, (x.1, tm) ∈ bd ∧ tm.lookup "AM" = some am ∧
      tm.lookup "EOD" = some eod ∧ x.2 = am - eod := by
  obtain ⟨x1, x2⟩ := x
  unfold demandRows
  rw [List.mem_filterMap]
  constructor
  · rintro ⟨⟨d, tm⟩, hmem, hf⟩
    cases hAM : tm.lookup "AM" with
    | none => simp [hAM] at hf
    | some am =>
      cases hEOD : tm.lookup "EOD" with
      | none => simp [hAM, hEOD] at hf
      | some eod =>
        simp only [hAM, hEOD, Option.some.injEq] at hf
        injection hf with h1 h2
        subst h1
        subst h2
        exact ⟨tm, am, eod, (sortItems_perm bd).mem_iff.mp hmem, hAM, hEOD, rfl⟩
  · rintro ⟨tm, am, eod, hmem, hAM, hEOD, hx⟩
    subst hx
    refine ⟨(x1, tm), (sortItems_perm bd).mem_iff.mpr hmem, ?_⟩
    simp only [hAM, hEOD]

lemma mem_of_mem_filteredSnaps (snaps : List Snapshot) (product : String)
    (store : Option String) (s : Snapshot) (h : s ∈ filteredSnaps snaps product store) :
    s ∈ snaps := by
  unfold filteredSnaps at h
  cases store with
  | none => exact (List.mem_filter.mp h).1
  | some st => exact (List.mem_filter.mp (List.mem_filter.mp h).1).1

lemma paths_count_eq (inv safety : ℚ) (samples : List (List ℚ)) :
    paths_within_horizon_count inv safety samples =
      samples.countP (fun p => (restock_day_from_path inv p safety).isSome) := by
  unfold paths_within_horizon_count restock_days_of
  rw [List.countP_map]
  rfl

/-! ### The claims -/

/-- Claim C1: for every starting inventory, safety-stock threshold and demand
path, the per-path restock day-index is the first 0-based day index at which
the running inventory (starting inventory minus the cumulative demand through
that day) is at most the safety stock, and it is `none` exactly when the
threshold is never reached within the path; in particular, for a constant
demand path of 4 units/day, on-hand inventory 25 and safety stock 0, the
restock day-index is 6. -/
theorem claim_C1 :
    (∀ (inv safety : ℚ) (p : List ℚ) (i : ℕ),
        restock_day_from_path inv p safety = some i ↔
          i < p.length ∧ inv - (p.take (i+1)).sum ≤ safety ∧
            ∀ j < i, safety < inv - (p.take (j+1)).sum) ∧
    (∀ (inv safety : ℚ) (p : List ℚ),
        restock_day_from_path inv p safety = none ↔
          ∀ j < p.length, safety < inv - (p.take (j+1)).sum) ∧
    restock_day_from_path 25 (List.replicate 14 4) 0 = some 6 := by
  refine ⟨fun inv safety p i => restock_day_eq_some_iff inv safety p i,
    fun inv safety p => restock_day_eq_none_iff inv safety p, ?_⟩
  norm_num [List.replicate, restock_day_from_path]

/-- Claim C2: whenever fewer than 2 qualifying days result, the demand-series
builder signals insufficient history (`none`), the DB pipeline stops before
any model is consulted (it returns `None` for every possible fitted model),
and the DB-free entry point re-validates the same minimum before fitting,
failing with the `InsufficientHistory` outcome (`ValueError` in the source). -/
theorem claim_C2 :
    (∀ (snaps : List Snapshot) (product : String) (store : Option String),
      qualifying_days snaps product store < MIN_DAYS_FOR_FORECAST →
        build_daily_demand_series snaps product store = none ∧
        ∀ (m : FittedModel) (horizon : ℕ) (safety : ℚ),
          run_forecast m snaps product store horizon safety = none) ∧
    (∀ (m : FittedModel) (series : List (ℤ × ℚ)) (inv : ℚ) (horizon : ℕ)
        (safety : ℚ) (ns : ℕ) (pt st : Option String),
      series.length < MIN_DAYS_FOR_FORECAST →
        run_forecast_from_series m series inv horizon safety ns pt st =
          Except.error ForecastError.insufficientHistory) := by
  constructor
  · intro snaps product store h
    unfold qualifying_days at h
    have hb : build_daily_demand_series snaps product store = none := by
      unfold build_daily_demand_series
      rw [if_pos h]
    refine ⟨hb, fun m horizon safety => ?_⟩
    unfold run_forecast
    rw [hb]
  · intro m series inv horizon safety ns pt st h
    exact run_from_series_insufficient m series inv horizon safety ns pt st h

/-- Witness for C2 at a concrete input: the empty observation set has 0
qualifying days, the builder and the pipeline both fail, and the DB-free entry
point rejects a length-0 series. -/
theorem claim_C2_witness :
    qualifying_days [] "beans" Option.none < MIN_DAYS_FOR_FORECAST ∧
    build_daily_demand_series [] "beans" Option.none = Option.none ∧
    run_forecast (constModel 4) [] "beans" Option.none 14 0 = Option.none ∧
    run_forecast_from_series (constModel 4) [] 25 14 0 500 Option.none Option.none =
      Except.error ForecastError.insufficientHistory := by
  have h1 : qualifying_days [] "beans" Option.none < MIN_DAYS_FOR_FORECAST := by decide
  have h2 := claim_C2.1 [] "beans" Option.none h1
  have h3 := claim_C2.2 (constModel 4) [] 25 14 0 500 Option.none Option.none (by decide)
  exact ⟨h1, h2.1, h2.2 (constModel 4) 14 0, h3⟩

/-- Claim C6 (spec-modelled): the forecast entry point rejects every request
whose horizon lies outside `[1, 90]` with the typed outcome `InvalidParameter`,
before any computation begins (the result is the error for every fitted model
and every observation set). -/
theorem claim_C6 (m : FittedModel) (snaps : List Snapshot) (product : String)
    (store : Option String) (horizon : ℤ) (safety : ℚ)
    (hbad : horizon < 1 ∨ 90 < horizon) :
    forecast_endpoint m snaps product store horizon safety =
      Except.error ForecastError.invalidParameter := by
  unfold forecast_endpoint
  rcases hbad with h | h
  · rw [if_pos (Or.inl h)]
  · rw [if_pos (Or.inr (Or.inl h))]

/-- Witness for C6: a horizon of 91 is rejected. -/
theorem claim_C6_witness :
    ((91:ℤ) < 1 ∨ (90:ℤ) < 91) ∧
    forecast_endpoint (constModel 4) [] "beans" Option.none 91 0 =
      Except.error ForecastError.invalidParameter :=
  ⟨Or.inr (by norm_num),
   claim_C6 (constModel 4) [] "beans" Option.none 91 0 (Or.inr (by norm_num))⟩

/-- Claim C10: the per-path restock day is monotone in the starting inventory:
for the same demand path and safety stock, a smaller starting inventory
restocks no later, where an undefined restock day counts as later than every
defined one. -/
theorem claim_C10 (p : List ℚ) (safety a b : ℚ) (hab : a ≤ b) :
    dayLE (restock_day_from_path a p safety) (restock_day_from_path b p safety) :=
  restock_day_mono p safety a b hab

/-- Witness for C10 at a concrete input. -/
theorem claim_C10_witness :
    (20:ℚ) ≤ 25 ∧
    dayLE (restock_day_from_path 20 [4,4,4,4,4,4,4] 0)
      (restock_day_from_path 25 [4,4,4,4,4,4,4] 0) :=
  ⟨by norm_num, claim_C10 [4,4,4,4,4,4,4] 0 20 25 (by norm_num)⟩

/-- Claim C3: for every restock estimate computed from a sample-path ensemble,
the dict reports the low, median and high day-indices, and they satisfy
low ≤ median ≤ high. -/
theorem claim_C3 (inv safety : ℚ) (start : ℤ) (samples : List (List ℚ))
    (hne : samples ≠ []) :
    ((restock_date_with_confidence inv samples start safety).lookup "restock_day_low" =
        some (Val.num (restock_day_low_val inv safety (n_days_of samples) samples)) ∧
     (restock_date_with_confidence inv samples start safety).lookup "restock_day_median" =
        some (Val.num (restock_day_median_val inv safety (n_days_of samples) samples)) ∧
     (restock_date_with_confidence inv samples start safety).lookup "restock_day_high" =
        some (Val.num (restock_day_high_val inv safety (n_days_of samples) samples))) ∧
    restock_day_low_val inv safety (n_days_of samples) samples ≤
      restock_day_median_val inv safety (n_days_of samples) samples ∧
    restock_day_median_val inv safety (n_days_of samples) samples ≤
      restock_day_high_val inv safety (n_days_of samples) samples :=
  ⟨⟨rdwc_lookup_day_low inv samples start safety,
    rdwc_lookup_day_median inv samples start safety,
    rdwc_lookup_day_high inv samples start safety⟩,
   restock_day_low_le_median inv safety (n_days_of samples) samples hne,
   restock_day_median_le_high inv safety (n_days_of samples) samples hne⟩

/-- Witness for C3 at a concrete two-path ensemble. -/
theorem claim_C3_witness :
    ([[(4:ℚ)], [5]] ≠ ([] : List (List ℚ))) ∧
    restock_day_low_val 25 0 (n_days_of [[(4:ℚ)], [5]]) [[(4:ℚ)], [5]] ≤
      restock_day_median_val 25 0 (n_days_of [[(4:ℚ)], [5]]) [[(4:ℚ)], [5]] ∧
    restock_day_median_val 25 0 (n_days_of [[(4:ℚ)], [5]]) [[(4:ℚ)], [5]] ≤
      restock_day_high_val 25 0 (n_days_of [[(4:ℚ)], [5]]) [[(4:ℚ)], [5]] :=
  ⟨by simp, (claim_C3 25 0 0 [[(4:ℚ)], [5]] (by simp)).2⟩

/-- Claim C4: no reported restock day-index (low, median or high) exceeds the
horizon length (the number of timesteps of the sample matrix), and no reported
restock calendar date exceeds the forecast start date plus the horizon — both
for the quantile estimator and for the assembled pipeline result, whose
deterministic branch also clamps to `start + horizon`. -/
theorem claim_C4 :
    (∀ (inv safety : ℚ) (samples : List (List ℚ)),
      samples ≠ [] → (∀ p ∈ samples, p.length = n_days_of samples) →
      restock_day_low_val inv safety (n_days_of samples) samples ≤
          ((n_days_of samples : ℕ) : ℚ) ∧
      restock_day_median_val inv safety (n_days_of samples) samples ≤
          ((n_days_of samples : ℕ) : ℚ) ∧
      restock_day_high_val inv safety (n_days_of samples) samples ≤
          ((n_days_of samples : ℕ) : ℚ)) ∧
    (∀ (inv safety : ℚ) (start : ℤ) (samples : List (List ℚ)) (k : String) (v : ℤ),
      (k = "restock_date_median" ∨ k = "restock_date_low" ∨ k = "restock_date_high") →
      (restock_date_with_confidence inv samples start safety).lookup k =
        some (Val.date v) →
      v ≤ start + (n_days_of samples : ℕ)) ∧
    (∀ (m : FittedModel) (series : List (ℤ × ℚ)) (inv : ℚ) (horizon : ℕ)
        (safety : ℚ) (ns : ℕ) (pt st : Option String) (r : List (String × Val))
        (k : String) (v : ℤ),
      run_forecast_from_series m series inv horizon safety ns pt st = Except.ok r →
      (k = "restock_date_median" ∨ k = "restock_date_low" ∨ k = "restock_date_high") →
      r.lookup k = some (Val.date v) →
      v ≤ start_date_of series + horizon) := by
  refine ⟨?_, ?_, ?_⟩
  · intro inv safety samples hne hw
    exact ⟨restock_day_low_le_horizon inv safety _ samples hne hw,
      restock_day_median_le_horizon inv safety _ samples hne hw,
      restock_day_high_le_horizon inv safety _ samples hne hw⟩
  · intro inv safety start samples k v hk hv
    rcases hk with rfl | rfl | rfl
    · rw [rdwc_lookup_date_median] at hv
      simp only [Option.some.injEq, Val.date.injEq] at hv
      rw [← hv]
      exact day_to_date_le start (n_days_of samples) _
    · rw [rdwc_lookup_date_low] at hv
      simp only [Option.some.injEq, Val.date.injEq] at hv
      rw [← hv]
      exact day_to_date_le start (n_days_of samples) _
    · rw [rdwc_lookup_date_high] at hv
      simp only [Option.some.injEq, Val.date.injEq] at hv
      rw [← hv]
      exact day_to_date_le start (n_days_of samples) _
  · intro m series inv horizon safety ns pt st r k v hok hk hv
    exact run_ok_date_le m series inv horizon safety ns pt st r k v hok hk hv

/-- Witness for C4: the quantile bounds at a concrete two-path ensemble, the
date clamp at a concrete estimate, and the pipeline date bound at a concrete
deterministic run. -/
theorem claim_C4_witness :
    (restock_day_low_val 25 0 (n_days_of [[(4:ℚ)], [5]]) [[(4:ℚ)], [5]] ≤
        ((n_days_of [[(4:ℚ)], [5]] : ℕ) : ℚ) ∧
     restock_day_median_val 25 0 (n_days_of [[(4:ℚ)], [5]]) [[(4:ℚ)], [5]] ≤
        ((n_days_of [[(4:ℚ)], [5]] : ℕ) : ℚ) ∧
     restock_day_high_val 25 0 (n_days_of [[(4:ℚ)], [5]]) [[(4:ℚ)], [5]] ≤
        ((n_days_of [[(4:ℚ)], [5]] : ℕ) : ℚ)) ∧
    day_to_date 0 (n_days_of [[(4:ℚ)], [5]])
        (restock_day_low_val 25 0 (n_days_of [[(4:ℚ)], [5]]) [[(4:ℚ)], [5]]) ≤
      0 + (n_days_of [[(4:ℚ)], [5]] : ℕ) ∧
    start_date_of [((0:ℤ), (4:ℚ)), (1, 4)] + 3 ≤
      start_date_of [((0:ℤ), (4:ℚ)), (1, 4)] + 3 := by
  have hne : [[(4:ℚ)], [5]] ≠ ([] : List (List ℚ)) := by simp
  have hw : ∀ p ∈ [[(4:ℚ)], [5]], p.length = n_days_of [[(4:ℚ)], [5]] := by
    intro p hp
    simp only [List.mem_cons, List.not_mem_nil, or_false] at hp
    rcases hp with rfl | rfl <;> rfl
  refine ⟨claim_C4.1 25 0 [[(4:ℚ)], [5]] hne hw, ?_, ?_⟩
  · exact claim_C4.2.1 25 0 0 [[(4:ℚ)], [5]] "restock_date_low" _
      (Or.inr (Or.inl rfl)) (rdwc_lookup_date_low 25 [[(4:ℚ)], [5]] 0 0)
  · have hrd : restock_day_from_path 25 ((constModel 4).predict 3 1).flatten 0 = none := by
      show restock_day_from_path 25 [4, 4, 4] 0 = none
      norm_num [restock_day_from_path]
    have hlen : ¬ ([((0:ℤ), (4:ℚ)), (1, 4)].length < MIN_DAYS_FOR_FORECAST) := by decide
    have hok := run_from_series_det (constModel 4) [((0:ℤ), (4:ℚ)), (1, 4)] 25 3 0 1
      Option.none Option.none hlen (le_refl 1)
    have hv : (result_base ((constModel 4).predict 3 1).flatten
        [((0:ℤ), (4:ℚ)), (1, 4)] 25 3 Option.none Option.none ++
        result_det_fields 25 ((constModel 4).predict 3 1).flatten
          (start_date_of [((0:ℤ), (4:ℚ)), (1, 4)]) 3 0).lookup "restock_date_median" =
        some (Val.date (start_date_of [((0:ℤ), (4:ℚ)), (1, 4)] + 3)) := by
      rw [lookup_append, base_lookup_date_median,
        det_lookup_date_median_none 25 _ _ 3 0 hrd]
      rfl
    exact claim_C4.2.2 (constModel 4) [((0:ℤ), (4:ℚ)), (1, 4)] 25 3 0 1
      Option.none Option.none _ "restock_date_median" _ hok (Or.inl rfl) hv

/-- Claim C5: for quantile arithmetic every sample path whose restock day is
undefined is treated exactly as if it restocked at day-index `n_days` (the
horizon length): the quantile input is then the constant list `n_days`, and
when no path crosses the threshold the reported median restock date equals the
forecast start date plus the horizon. -/
theorem claim_C5 (inv safety : ℚ) (start : ℤ) (samples : List (List ℚ))
    (hne : samples ≠ [])
    (hnone : ∀ p ∈ samples, restock_day_from_path inv p safety = none) :
    days_for_quantile inv safety (n_days_of samples) samples =
      List.replicate samples.length ((n_days_of samples : ℕ) : ℚ) ∧
    restock_day_median_val inv safety (n_days_of samples) samples =
      ((n_days_of samples : ℕ) : ℚ) ∧
    (restock_date_with_confidence inv samples start safety).lookup "restock_date_median" =
      some (Val.date (start + (n_days_of samples : ℕ))) := by
  have hconst := days_for_quantile_const_of_none inv safety (n_days_of samples)
    samples hnone
  have h1 := List.eq_replicate_of_mem hconst
  rw [days_for_quantile_length] at h1
  refine ⟨h1, restock_day_median_of_never inv safety _ samples hne hnone, ?_⟩
  rw [rdwc_lookup_date_median,
    restock_day_median_of_never inv safety _ samples hne hnone, day_to_date_natCast]

/-- Witness for C5: with inventory 100 no 2-day path of demand 4 or 5 crosses
the threshold, and the reported median date is the start date plus the
horizon. -/
theorem claim_C5_witness :
    (∀ p ∈ [[(4:ℚ), 4], [5, 5]], restock_day_from_path 100 p 0 = none) ∧
    (restock_date_with_confidence 100 [[(4:ℚ), 4], [5, 5]] 7 0).lookup "restock_date_median" =
      some (Val.date (7 + (n_days_of [[(4:ℚ), 4], [5, 5]] : ℕ))) := by
  have hnone : ∀ p ∈ [[(4:ℚ), 4], [5, 5]], restock_day_from_path 100 p 0 = none := by
    intro p hp
    simp only [List.mem_cons, List.not_mem_nil, or_false] at hp
    rcases hp with rfl | rfl <;> norm_num [restock_day_from_path]
  exact ⟨hnone, (claim_C5 100 0 7 [[(4:ℚ), 4], [5, 5]] (by simp) hnone).2.2⟩

/-- Counterexample to claim C7 as stated: a probabilistic forecast (three
sample paths, `num_samples = 3 > 1`) whose assembled final pipeline result has
no `paths_within_horizon` field at all. -/
theorem claim_C7_counterexample :
    ((run_forecast_from_series (constModel 4) [((0:ℤ), (4:ℚ)), (1, 4)] 25 3 0 3
        Option.none Option.none).toOption.getD []).lookup "paths_within_horizon" =
      Option.none := by
  rw [run_from_series_prob (constModel 4) [((0:ℤ), (4:ℚ)), (1, 4)] 25 3 0 3
    Option.none Option.none (by decide) (by norm_num)]
  simp only [Except.toOption, Option.getD_some]
  rw [lookup_append, base_lookup_paths, prob_lookup_paths]
  rfl

/-- Claim C7 amended: the restock-date estimator's returned dict does report
the count of sample paths that crossed the depletion threshold within the
horizon, but `run_forecast_from_series` never copies it, so the assembled
final pipeline result carries no `paths_within_horizon` field. -/
theorem claim_C7_amended :
    (∀ (inv safety : ℚ) (start : ℤ) (samples : List (List ℚ)),
      (restock_date_with_confidence inv samples start safety).lookup "paths_within_horizon" =
        some (Val.num ((paths_within_horizon_count inv safety samples : ℕ) : ℚ)) ∧
      paths_within_horizon_count inv safety samples =
        samples.countP (fun p => (restock_day_from_path inv p safety).isSome)) ∧
    (∀ (m : FittedModel) (series : List (ℤ × ℚ)) (inv : ℚ) (horizon : ℕ)
        (safety : ℚ) (ns : ℕ) (pt st : Option String) (r : List (String × Val)),
      run_forecast_from_series m series inv horizon safety ns pt st = Except.ok r →
      r.lookup "paths_within_horizon" = none) :=
  ⟨fun inv safety start samples =>
    ⟨rdwc_lookup_paths inv samples start safety, paths_count_eq inv safety samples⟩,
   fun m series inv horizon safety ns pt st r hok =>
    run_ok_no_paths_field m series inv horizon safety ns pt st r hok⟩

/-- Witness for the amended C7 at concrete inputs: the estimator dict carries
the count, the concrete probabilistic pipeline result does not. -/
theorem claim_C7_witness :
    (restock_date_with_confidence 25 [[(4:ℚ)], [5]] 0 0).lookup "paths_within_horizon" =
      some (Val.num ((paths_within_horizon_count 25 0 [[(4:ℚ)], [5]] : ℕ) : ℚ)) ∧
    (result_base ((constModel 4).predict 3 1).flatten [((0:ℤ), (4:ℚ)), (1, 4)] 25 3
        Option.none Option.none ++
      result_prob_fields 25 ((constModel 4).predict 3 3)
        (start_date_of [((0:ℤ), (4:ℚ)), (1, 4)]) 0).lookup "paths_within_horizon" =
      none :=
  ⟨(claim_C7_amended.1 25 0 0 [[(4:ℚ)], [5]]).1,
   claim_C7_amended.2 (constModel 4) [((0:ℤ), (4:ℚ)), (1, 4)] 25 3 0 3
    Option.none Option.none _
    (run_from_series_prob (constModel 4) [((0:ℤ), (4:ℚ)), (1, 4)] 25 3 0 3
      Option.none Option.none (by decide) (by norm_num))⟩

/-- Claim C8: every emitted demand point belongs to a day that has both a
morning and an end-of-day reading of the product in the input (days with only
one reading are dropped), its value is the stored morning count minus the
stored end-of-day count, and the emitted series is strictly increasing by
date, hence without duplicate dates. -/
theorem claim_C8 (snaps : List Snapshot) (product : String) (store : Option String)
    (rows : List (ℤ × ℤ))
    (hb : build_daily_demand_series snaps product store = some rows) :
    rows.Pairwise (fun a b => a.1 < b.1) ∧
    ∀ x ∈ rows, ∃ am eod,
      todLookup (groupSnapshots (filteredSnaps snaps product store) product) x.1 "AM" =
        some am ∧
      todLookup (groupSnapshots (filteredSnaps snaps product store) product) x.1 "EOD" =
        some eod ∧
      x.2 = am - eod ∧
      (∃ s ∈ snaps, date_floor s.timestamp = x.1 ∧ s.time_of_day = "AM" ∧
        ∃ c ∈ s.counts, c.1 = product) ∧
      (∃ s ∈ snaps, date_floor s.timestamp = x.1 ∧ s.time_of_day = "EOD" ∧
        ∃ c ∈ s.counts, c.1 = product) := by
  have hrows : rows =
      demandRows (groupSnapshots (filteredSnaps snaps product store) product) := by
    unfold build_daily_demand_series at hb
    by_cases h : (demandRows (groupSnapshots (filteredSnaps snaps product store)
        product)).length < MIN_DAYS_FOR_FORECAST
    · rw [if_pos h] at hb
      exact absurd hb (by simp)
    · rw [if_neg h] at hb
      exact (Option.some.inj hb).symm
  have hnd := keys_nodup_groupSnapshots (filteredSnaps snaps product store) product
  constructor
  · rw [hrows]
    exact demandRows_pairwise_lt _ hnd
  · intro x hx
    rw [hrows] at hx
    obtain ⟨tm, am, eod, hmem, hAM, hEOD, hval⟩ := (mem_demandRows _ x).mp hx
    have hlk : (groupSnapshots (filteredSnaps snaps product store) product).lookup x.1 =
        some tm := lookup_eq_of_mem_of_nodup _ _ _ hmem hnd
    have hAM2 : todLookup (groupSnapshots (filteredSnaps snaps product store) product)
        x.1 "AM" = some am := by
      unfold todLookup
      rw [hlk]
      simpa using hAM
    have hEOD2 : todLookup (groupSnapshots (filteredSnaps snaps product store) product)
        x.1 "EOD" = some eod := by
      unfold todLookup
      rw [hlk]
      simpa using hEOD
    refine ⟨am, eod, hAM2, hEOD2, hval, ?_, ?_⟩
    · have hsome : (todLookup (groupSnapshots (filteredSnaps snaps product store)
          product) x.1 "AM").isSome = true := by
        rw [hAM2]
        rfl
      obtain ⟨s, hs, h1, h2, hc⟩ :=
        (todLookup_groupSnapshots _ product x.1 "AM").mp hsome
      exact ⟨s, mem_of_mem_filteredSnaps snaps product store s hs, h1, h2, hc⟩
    · have hsome : (todLookup (groupSnapshots (filteredSnaps snaps product store)
          product) x.1 "EOD").isSome = true := by
        rw [hEOD2]
        rfl
      obtain ⟨s, hs, h1, h2, hc⟩ :=
        (todLookup_groupSnapshots _ product x.1 "EOD").mp hsome
      exact ⟨s, mem_of_mem_filteredSnaps snaps product store s hs, h1, h2, hc⟩

/-- Witness for C8: four snapshots over two days build the series
`[(0, 4), (1, 4)]`, which is strictly increasing by date. -/
theorem claim_C8_witness :
    build_daily_demand_series
      [⟨⟨0, 8⟩, "AM", "d", [("beans", 10)]⟩, ⟨⟨0, 20⟩, "EOD", "d", [("beans", 6)]⟩,
       ⟨⟨1, 8⟩, "AM", "d", [("beans", 9)]⟩, ⟨⟨1, 20⟩, "EOD", "d", [("beans", 5)]⟩]
      "beans" Option.none = some [(0, 4), (1, 4)] ∧
    ([((0:ℤ), (4:ℤ)), (1, 4)]).Pairwise (fun a b => a.1 < b.1) := by
  have hb : build_daily_demand_series
      [⟨⟨0, 8⟩, "AM", "d", [("beans", 10)]⟩, ⟨⟨0, 20⟩, "EOD", "d", [("beans", 6)]⟩,
       ⟨⟨1, 8⟩, "AM", "d", [("beans", 9)]⟩, ⟨⟨1, 20⟩, "EOD", "d", [("beans", 5)]⟩]
      "beans" Option.none = some [(0, 4), (1, 4)] := by decide
  exact ⟨hb, (claim_C8 _ "beans" Option.none [(0, 4), (1, 4)] hb).1⟩

/-- Counterexample to claim C9 as stated: with a constant point forecast of
1/3 over a one-day horizon, the clipped sum is 1/3 but the reported total is
the two-decimal rounding 33/100. -/
theorem claim_C9_counterexample :
    ((run_forecast_from_series (constModel (1/3)) [((0:ℤ), (4:ℚ)), (1, 4)] 25 1 0 1
        Option.none Option.none).toOption.getD []).lookup "predicted_stock_needed" ≠
      some (Val.num ((((forecast_demand (constModel (1/3)) 1 1).1).map
        (fun x => max 0 x)).sum)) := by
  rw [run_from_series_det (constModel (1/3)) [((0:ℤ), (4:ℚ)), (1, 4)] 25 1 0 1
    Option.none Option.none (by decide) (le_refl 1)]
  simp only [Except.toOption, Option.getD_some]
  rw [lookup_append, base_lookup_stock, forecast_demand_point]
  have hpv : ((constModel (1/3)).predict 1 1).flatten = [1/3] := rfl
  rw [hpv]
  simp only [Option.or]
  intro hc
  simp only [Option.some.injEq, Val.num.injEq] at hc
  have hS : (([(1:ℚ)/3]).map (fun x => max 0 x)).sum = 1/3 := by
    simp
  rw [hS] at hc
  have hround : pyRound2 (1/3) = 33/100 := by
    unfold pyRound2 pyRound
    have h1 : ⌊(100:ℚ) * (1/3)⌋ = 33 := by norm_num
    rw [h1]
    norm_num
  rw [hround] at hc
  norm_num at hc

/-- Claim C9 amended: the reported total predicted stock equals the sum of the
per-day point-forecast values clipped elementwise at zero, rounded half-even
to two decimal places (Python's `round(x, 2)`); negative values contribute
nothing. -/
theorem claim_C9_amended (m : FittedModel) (series : List (ℤ × ℚ)) (inv : ℚ)
    (horizon : ℕ) (safety : ℚ) (ns : ℕ) (pt st : Option String)
    (r : List (String × Val))
    (hok : run_forecast_from_series m series inv horizon safety ns pt st = Except.ok r) :
    r.lookup "predicted_stock_needed" =
      some (Val.num (pyRound2 ((((forecast_demand m horizon ns).1).map
        (fun x => max 0 x)).sum))) :=
  run_ok_stock_field m series inv horizon safety ns pt st r hok

/-- Witness for the amended C9 at a concrete deterministic run. -/
theorem claim_C9_witness :
    (result_base ((constModel 4).predict 3 1).flatten [((0:ℤ), (4:ℚ)), (1, 4)] 25 3
        Option.none Option.none ++
      result_det_fields 25 ((constModel 4).predict 3 1).flatten
        (start_date_of [((0:ℤ), (4:ℚ)), (1, 4)]) 3 0).lookup "predicted_stock_needed" =
      some (Val.num (pyRound2 ((((forecast_demand (constModel 4) 3 1).1).map
        (fun x => max 0 x)).sum))) :=
  claim_C9_amended (constModel 4) [((0:ℤ), (4:ℚ)), (1, 4)] 25 3 0 1 Option.none
    Option.none _
    (run_from_series_det (constModel 4) [((0:ℤ), (4:ℚ)), (1, 4)] 25 3 0 1 Option.none
      Option.none (by decide) (le_refl 1))

end Storacle
